import Mathlib

/-!
Lidar obstacle detection: plane segmentation, cloud separation, bounding boxes.

A shallow embedding of `src/quiz/ransac/ransac2d.cpp` (`RansacPlane`, the
inlier/outlier split of `main`) and of `src/processPointClouds.cpp`
(`SeparateClouds`, `Clustering`, `BoundingBox`).

Conventions of the embedding.

* Coordinates live in an arbitrary linearly ordered commutative ring `α`
  (exact arithmetic: `ℤ`, `ℚ`, `ℝ`, ...); rounding of `float`/`double` is not
  modelled.
* A cloud is the list `cloud->points`; an index is a `Nat` (the source uses
  `int`/`size_t`, which agree with `Nat` for clouds of fewer than `2^31` points).
* `std::unordered_set<int>` is a duplicate-free list in insertion order, and
  iteration from `begin()` follows that list.
* `rand()` is the finite list of the values its successive calls return.
-/

set_option linter.unusedSectionVars false

namespace LidarObstacleDetection

variable {α : Type} [LinearOrderedCommRing α]

/-! ## Data model -/

/-- The point type `pcl::PointXYZ`: three coordinates. -/
structure PointXYZ (α : Type) where
  x : α
  y : α
  z : α
deriving DecidableEq, Repr

/-- Modelled from the spec: `Vect3`, declared in a header outside `src/`; a
3-vector with the componentwise difference, cross product and Euclidean norm
the plane fit uses (spec 4.1, step 2). -/
structure Vect3 (α : Type) where
  x : α
  y : α
  z : α
deriving DecidableEq, Repr

/-- Conversion `Vect3{p}` of a point. -/
def Vect3.ofPoint (p : PointXYZ α) : Vect3 α := ⟨p.x, p.y, p.z⟩

/-- Difference `a - b` on `Vect3`. -/
def Vect3.sub (a b : Vect3 α) : Vect3 α := ⟨a.x - b.x, a.y - b.y, a.z - b.z⟩

/-- Cross product `a.cross(b)`. -/
def Vect3.cross (a b : Vect3 α) : Vect3 α :=
  ⟨a.y * b.z - a.z * b.y, a.z * b.x - a.x * b.z, a.x * b.y - a.y * b.x⟩

/-- Square of `v.norm()`; the norm itself is its square root. -/
def Vect3.normSq (v : Vect3 α) : α := v.x * v.x + v.y * v.y + v.z * v.z

/-- Outcomes of a run that are not a returned value. -/
inductive Failure where
  /-- The check `assert(numPoints >= 3)` fails. -/
  | InsufficientPoints
  /-- The supplied list of `rand()` values ends before the run does. -/
  | RandExhausted
  /-- A read `cloud->points[i]` past the end of the cloud. -/
  | OutOfRange
deriving DecidableEq, Repr

/-! ## `RansacPlane` (ransac2d.cpp, lines 126-192) -/

/-- The call `inliers.insert(v)` on a `std::unordered_set<int>`. -/
def setInsert (s : List Nat) (v : Nat) : List Nat :=
  if v ∈ s then s else s ++ [v]

/-- The loop `while (inliers.size() < 3) inliers.insert(rand() % numPoints);`
run on the upcoming `rand()` values; returns the set and the unused values,
or `none` when the values end while the set is still smaller than 3. -/
def sampleLoop (numPoints : Nat) : List Nat → List Nat → Option (List Nat × List Nat)
  | inliers, [] => if inliers.length < 3 then none else some (inliers, [])
  | inliers, r :: rest =>
    if inliers.length < 3 then sampleLoop numPoints (setInsert inliers (r % numPoints)) rest
    else some (inliers, r :: rest)

/-- The plane coefficients of lines 151-163, with `N` the squared norm of the
normal (so `normalizer = 1.0 / sqrt N`). -/
structure PlaneCoefficients (α : Type) where
  A : α
  B : α
  C : α
  D : α
  N : α
deriving DecidableEq, Repr

/-- Lines 151-163: `v1 = p2 - p1`, `v2 = p3 - p1`, `normal = v1.cross(v2)`,
`A, B, C = normal.x, normal.y, normal.z` and
`D = (A * p1.x + B * p1.y + C * p1.z)`. -/
def planeCoefficients (p1 p2 p3 : PointXYZ α) : PlaneCoefficients α :=
  let v1 := Vect3.sub (Vect3.ofPoint p2) (Vect3.ofPoint p1)
  let v2 := Vect3.sub (Vect3.ofPoint p3) (Vect3.ofPoint p1)
  let normal := Vect3.cross v1 v2
  let A := normal.x
  let B := normal.y
  let C := normal.z
  let D := (A * p1.x + B * p1.y + C * p1.z)
  ⟨A, B, C, D, Vect3.normSq normal⟩

/-- The expression `A * pt.x + B * pt.y + C * pt.z + D` of line 175. -/
def planeExpr (pl : PlaneCoefficients α) (pt : PointXYZ α) : α :=
  pl.A * pt.x + pl.B * pt.y + pl.C * pt.z + pl.D

/-- The test of lines 175-178, `d = std::abs(e) * normalizer; d <= distanceTol`
with `normalizer = 1.0 / sqrt N`, in exact arithmetic. For `N > 0` it is
`0 <= distanceTol` and `e * e <= distanceTol * distanceTol * N`
(see `withinTol_iff_real`). For `N = 0` the normalizer is `1.0 / 0.0 = +inf`,
`d` is `inf` or `NaN`, and the comparison is false. -/
def withinTol (pl : PlaneCoefficients α) (distanceTol : α) (pt : PointXYZ α) : Bool :=
  decide (pl.N ≠ 0 ∧ 0 ≤ distanceTol ∧
    planeExpr pl pt * planeExpr pl pt ≤ distanceTol * distanceTol * pl.N)

/-- The loop of lines 166-181 from index `j` on, `pts` being the points at
indices `j, j+1, ...`: a point already in `inliers` is skipped, another one is
inserted when it passes the distance test. -/
def distanceLoop (pl : PlaneCoefficients α) (distanceTol : α) :
    Nat → List (PointXYZ α) → List Nat → List Nat
  | _, [], inliers => inliers
  | j, pt :: pts, inliers =>
    if j ∈ inliers then distanceLoop pl distanceTol (j + 1) pts inliers
    else if withinTol pl distanceTol pt then
      distanceLoop pl distanceTol (j + 1) pts (setInsert inliers j)
    else distanceLoop pl distanceTol (j + 1) pts inliers

/-- Lines 144-149: the three sampled points, read through the first three
elements of the sample set. -/
def samplePoints (cloud : List (PointXYZ α)) (sample : List Nat) :
    Option (PointXYZ α × PointXYZ α × PointXYZ α) :=
  match sample with
  | i1 :: i2 :: i3 :: _ =>
    match cloud[i1]?, cloud[i2]?, cloud[i3]? with
    | some p1, some p2, some p3 => some (p1, p2, p3)
    | _, _, _ => none
  | _ => none

/-- One pass of the body of the main loop up to line 181: sample, fit, scan.
Returns the inlier set of the iteration and the unused `rand()` values. -/
def planeIteration (cloud : List (PointXYZ α)) (distanceTol : α) (rnd : List Nat) :
    Except Failure (List Nat × List Nat) :=
  match sampleLoop cloud.length [] rnd with
  | none => .error .RandExhausted
  | some (inliers, rest) =>
    match samplePoints cloud inliers with
    | none => .error .OutOfRange
    | some (p1, p2, p3) =>
      .ok (distanceLoop (planeCoefficients p1 p2 p3) distanceTol 0 cloud inliers, rest)

/-- Lines 186-188: the stored result is replaced only by a larger set. -/
def keepBest (inliersResult inliers : List Nat) : List Nat :=
  if inliers.length > inliersResult.length then inliers else inliersResult

/-- The main loop (lines 134-189) with `n` iterations left. -/
def ransacLoop (cloud : List (PointXYZ α)) (distanceTol : α) :
    Nat → List Nat → List Nat → Except Failure (List Nat)
  | 0, _, inliersResult => .ok inliersResult
  | n + 1, rnd, inliersResult =>
    match planeIteration cloud distanceTol rnd with
    | .error e => .error e
    | .ok (inliers, rest) => ransacLoop cloud distanceTol n rest (keepBest inliersResult inliers)

/-- The function `RansacPlane(cloud, maxIterations, distanceTol)`. -/
def RansacPlane (cloud : List (PointXYZ α)) (maxIterations : Int) (distanceTol : α)
    (rnd : List Nat) : Except Failure (List Nat) :=
  if cloud.length < 3 then .error .InsufficientPoints
  else ransacLoop cloud distanceTol maxIterations.toNat rnd []

/-- The inlier sets computed by `n` successive iterations of the main loop, in
order (a trace of `ransacLoop`, used to state which iteration wins). -/
def iterationSets (cloud : List (PointXYZ α)) (distanceTol : α) :
    Nat → List Nat → Except Failure (List (List Nat))
  | 0, _ => .ok []
  | n + 1, rnd =>
    match planeIteration cloud distanceTol rnd with
    | .error e => .error e
    | .ok (inliers, rest) =>
      match iterationSets cloud distanceTol n rest with
      | .error e => .error e
      | .ok sets => .ok (inliers :: sets)

/-- The sample sets drawn by `n` successive iterations of the main loop, in
order (the scan of an iteration draws no random value). -/
def sampledTriples (numPoints : Nat) : Nat → List Nat → Option (List (List Nat))
  | 0, _ => some []
  | n + 1, rnd =>
    match sampleLoop numPoints [] rnd with
    | none => none
    | some (sample, rest) =>
      match sampledTriples numPoints n rest with
      | none => none
      | some samples => some (sample :: samples)

/-- The sampled triple of points yields a zero-length normal. -/
def zeroNormal (cloud : List (PointXYZ α)) (sample : List Nat) : Bool :=
  match samplePoints cloud sample with
  | some (p1, p2, p3) => decide ((planeCoefficients p1 p2 p3).N = 0)
  | none => false

/-- The inlier/outlier split of `main` (ransac2d.cpp, lines 217-223) from
`index` on, `pts` being the points at indices `index, index+1, ...`. -/
def splitLoop {PointT : Type} (inliers : List Nat) :
    Nat → List PointT → List PointT × List PointT → List PointT × List PointT
  | _, [], acc => acc
  | index, point :: pts, (cloudInliers, cloudOutliers) =>
    if index ∈ inliers then
      splitLoop inliers (index + 1) pts (cloudInliers ++ [point], cloudOutliers)
    else
      splitLoop inliers (index + 1) pts (cloudInliers, cloudOutliers ++ [point])

/-- The pair `(cloudInliers, cloudOutliers)` built by `main`. -/
def mainSplit {PointT : Type} (cloud : List PointT) (inliers : List Nat) :
    List PointT × List PointT :=
  splitLoop inliers 0 cloud ([], [])

/-! ## `SeparateClouds` (processPointClouds.cpp, lines 41-63) -/

/-- A loop `for (index : indices) out.push_back(cloud->points[index]);`
(lines 51-53 and 145-147); `none` when a read is past the end of the cloud. -/
def gatherPoints {PointT : Type} (cloud : List PointT) : List Nat → Option (List PointT)
  | [] => some []
  | index :: rest =>
    match cloud[index]?, gatherPoints cloud rest with
    | some pt, some pts => some (pt :: pts)
    | _, _ => none

/-- Modelled from the spec: `pcl::ExtractIndices` with `setNegative(true)`, a
library filter outside `src/`; it keeps the points whose index is not among
the given indices, "a stable, order-preserving filter over the original
cloud" (spec 4.1, Output). -/
def extractNegative {PointT : Type} (indices : List Nat) (cloud : List PointT) : List PointT :=
  (cloud.enum.filter (fun q => !decide (q.1 ∈ indices))).map Prod.snd

/-- The function `SeparateClouds(inliers, cloud)`: the pair
`(planeCloud, obstacleCloud)`. -/
def SeparateClouds {PointT : Type} (inliers : List Nat) (cloud : List PointT) :
    Option (List PointT × List PointT) :=
  match gatherPoints cloud inliers with
  | none => none
  | some planeCloud => some (planeCloud, extractNegative inliers cloud)

/-- The order-preserving filter of a cloud by a predicate on positions. -/
def filterByIndex {PointT : Type} (keep : Nat → Bool) (cloud : List PointT) : List PointT :=
  (cloud.enum.filter (fun q => keep q.1)).map Prod.snd

/-! ## `BoundingBox` (processPointClouds.cpp, lines 161-177) -/

/-- The struct `Box` filled by `BoundingBox`. -/
structure Box (α : Type) where
  x_min : α
  y_min : α
  z_min : α
  x_max : α
  y_max : α
  z_max : α
deriving DecidableEq, Repr

/-- Modelled from the spec: `pcl::getMinMax3D`, a library routine outside
`src/`; it "scans all points ... tracking running minima/maxima per axis"
(spec 4.4). The running minima start at `FLT_MAX` and the running maxima at
`-FLT_MAX`, the largest finite `float` being a parameter. -/
def getMinMax3D (FLT_MAX : α) (cluster : List (PointXYZ α)) : PointXYZ α × PointXYZ α :=
  cluster.foldl
    (fun acc p =>
      (⟨min acc.1.x p.x, min acc.1.y p.y, min acc.1.z p.z⟩,
       ⟨max acc.2.x p.x, max acc.2.y p.y, max acc.2.z p.z⟩))
    (⟨FLT_MAX, FLT_MAX, FLT_MAX⟩, ⟨-FLT_MAX, -FLT_MAX, -FLT_MAX⟩)

/-- The function `BoundingBox(cluster)`. -/
def BoundingBox (FLT_MAX : α) (cluster : List (PointXYZ α)) : Box α :=
  let minPoint := (getMinMax3D FLT_MAX cluster).1
  let maxPoint := (getMinMax3D FLT_MAX cluster).2
  { x_min := minPoint.x, y_min := minPoint.y, z_min := minPoint.z,
    x_max := maxPoint.x, y_max := maxPoint.y, z_max := maxPoint.z }

/-! ## `Clustering` (processPointClouds.cpp, lines 115-158) -/

/-- Squared Euclidean distance of two points. -/
def sqDist (p q : PointXYZ α) : α :=
  (p.x - q.x) * (p.x - q.x) + (p.y - q.y) * (p.y - q.y) + (p.z - q.z) * (p.z - q.z)

/-- Modelled from the spec: the radius query of the Spatial Index (spec 4.2),
`query(index, point, radius) -> set of indices within radius`; the k-d tree is
library code outside `src/`. Distance at most `radius` is `0 <= radius` and
squared distance at most `radius * radius`. -/
def radiusSearch (cloud : List (PointXYZ α)) (radius : α) (p : PointXYZ α) : List Nat :=
  (cloud.enum.filter
    (fun q => decide (0 ≤ radius ∧ sqDist p q.2 ≤ radius * radius))).map Prod.fst

/-- Modelled from the spec: the breadth-first expansion of spec 4.3, step 3,
done by `pcl::EuclideanClusterExtraction`, library code outside `src/`: pop a
point, query its neighbours within `tolerance`, enqueue every neighbour not
yet processed and mark it processed at once. Returns the accumulated cluster
and the processed markers; `none` when `fuel` pops do not empty the queue. -/
def expandCluster (cloud : List (PointXYZ α)) (tolerance : α) :
    Nat → List Nat → List Nat → List Nat → Option (List Nat × List Nat)
  | _, [], processed, cluster => some (cluster, processed)
  | 0, _ :: _, _, _ => none
  | fuel + 1, p :: queue, processed, cluster =>
    match cloud[p]? with
    | none => none
    | some pt =>
      let fresh := (radiusSearch cloud tolerance pt).filter (fun j => !decide (j ∈ processed))
      expandCluster cloud tolerance fuel (queue ++ fresh) (processed ++ fresh) (cluster ++ [p])

/-- Modelled from the spec: steps 3 to 5 of spec 4.3 over the seed indices
still to visit: an unprocessed point seeds an expansion, and the candidate
cluster is retained only if its size is within `[minSize, maxSize]`. -/
def extractLoop (cloud : List (PointXYZ α)) (tolerance : α) (minSize maxSize : Int) :
    List Nat → List Nat → List (List Nat) → Option (List (List Nat))
  | [], _, clusters => some clusters
  | p :: seeds, processed, clusters =>
    if p ∈ processed then extractLoop cloud tolerance minSize maxSize seeds processed clusters
    else
      match expandCluster cloud tolerance cloud.length [p] (processed ++ [p]) [] with
      | none => none
      | some (cluster, processed2) =>
        if minSize ≤ (cluster.length : Int) ∧ (cluster.length : Int) ≤ maxSize then
          extractLoop cloud tolerance minSize maxSize seeds processed2 (clusters ++ [cluster])
        else extractLoop cloud tolerance minSize maxSize seeds processed2 clusters

/-- Modelled from the spec: `extractClusters(cloud, tolerance, minSize,
maxSize)` of spec 4.3, the call `ec.extract(cluster_indices)` of line 136. -/
def extractClusters (cloud : List (PointXYZ α)) (tolerance : α) (minSize maxSize : Int) :
    Option (List (List Nat)) :=
  extractLoop cloud tolerance minSize maxSize (List.range cloud.length) [] []

/-- Lines 139-150: one new cloud per cluster of indices. -/
def cloudsOfClusters (cloud : List (PointXYZ α)) :
    List (List Nat) → Option (List (List (PointXYZ α)))
  | [] => some []
  | indices :: rest =>
    match gatherPoints cloud indices, cloudsOfClusters cloud rest with
    | some cloud_cluster, some clusters => some (cloud_cluster :: clusters)
    | _, _ => none

/-- The function `Clustering(cloud, clusterTolerance, minSize, maxSize)`. -/
def Clustering (cloud : List (PointXYZ α)) (clusterTolerance : α) (minSize maxSize : Int) :
    Option (List (List (PointXYZ α))) :=
  match extractClusters cloud clusterTolerance minSize maxSize with
  | none => none
  | some cluster_indices => cloudsOfClusters cloud cluster_indices

/-- A `rand()` sequence that makes each of `n` iterations sample `0, 1, 2`. -/
def cycleDraws : Nat → List Nat
  | 0 => []
  | n + 1 => 0 :: 1 :: 2 :: cycleDraws n

/-! ## Example inputs -/

/-- Four points of the plane `z = 1`, which misses the origin. -/
def offsetPlaneCloud : List (PointXYZ ℤ) :=
  [⟨0, 0, 1⟩, ⟨1, 0, 1⟩, ⟨0, 1, 1⟩, ⟨1, 1, 1⟩]

/-- Four points of the line `y = z = 0`. -/
def lineCloud : List (PointXYZ ℤ) :=
  [⟨0, 0, 0⟩, ⟨1, 0, 0⟩, ⟨2, 0, 0⟩, ⟨3, 0, 0⟩]

/-- Five points: four on the plane `z = 0` and one above it. -/
def groundCloud : List (PointXYZ ℤ) :=
  [⟨0, 0, 0⟩, ⟨1, 0, 0⟩, ⟨0, 1, 0⟩, ⟨0, 0, 5⟩, ⟨1, 1, 0⟩]

/-- Four points of the plane `z = 0`, which passes through the origin. -/
def originPlaneCloud : List (PointXYZ ℤ) :=
  [⟨0, 0, 0⟩, ⟨1, 0, 0⟩, ⟨0, 1, 0⟩, ⟨1, 1, 0⟩]

/-- Two groups of points, around the origin and around `(10, 0, 0)`, and a
lone point. -/
def twoGroupsCloud : List (PointXYZ ℤ) :=
  [⟨0, 0, 0⟩, ⟨10, 0, 0⟩, ⟨1, 0, 0⟩, ⟨11, 0, 0⟩, ⟨50, 0, 0⟩, ⟨0, 1, 0⟩]

/-! ## Helper lemmas: sets and sampling -/

theorem mem_setInsert (s : List Nat) (v x : Nat) :
    x ∈ setInsert s v ↔ x ∈ s ∨ x = v := by
  unfold setInsert
  split
  · constructor
    · intro h; exact Or.inl h
    · rintro (h | h)
      · exact h
      · subst h; assumption
  · simp

theorem nodup_setInsert (s : List Nat) (v : Nat) (h : s.Nodup) : (setInsert s v).Nodup := by
  unfold setInsert
  split
  · exact h
  · rename_i hv
    rw [List.nodup_append]
    refine ⟨h, List.nodup_singleton v, ?_⟩
    intro a ha hb
    simp at hb
    subst hb
    exact hv ha

theorem prefix_setInsert (s : List Nat) (v : Nat) : s <+: setInsert s v := by
  unfold setInsert
  split
  · exact List.prefix_refl s
  · exact List.prefix_append s [v]

theorem length_setInsert_le (s : List Nat) (v : Nat) :
    (setInsert s v).length ≤ s.length + 1 := by
  unfold setInsert
  split <;> simp

theorem sampleLoop_spec (numPoints : Nat) (hn : 0 < numPoints) :
    ∀ (rnd s0 s rest : List Nat), sampleLoop numPoints s0 rnd = some (s, rest) →
      s0.length ≤ 3 → s0.Nodup → (∀ i ∈ s0, i < numPoints) →
      s.length = 3 ∧ s.Nodup ∧ (∀ i ∈ s, i < numPoints) := by
  intro rnd
  induction rnd with
  | nil =>
    intro s0 s rest h hl hnd hr
    simp only [sampleLoop] at h
    split at h
    · simp at h
    · simp only [Option.some.injEq, Prod.mk.injEq] at h
      obtain ⟨rfl, _⟩ := h
      exact ⟨by omega, hnd, hr⟩
  | cons r rnd ih =>
    intro s0 s rest h hl hnd hr
    simp only [sampleLoop] at h
    split at h
    · rename_i hlt
      refine ih _ s rest h ?_ (nodup_setInsert s0 _ hnd) ?_
      · have := length_setInsert_le s0 (r % numPoints); omega
      · intro i hi
        rcases (mem_setInsert s0 _ i).1 hi with h1 | h1
        · exact hr i h1
        · subst h1; exact Nat.mod_lt _ hn
    · simp only [Option.some.injEq, Prod.mk.injEq] at h
      obtain ⟨rfl, _⟩ := h
      exact ⟨by omega, hnd, hr⟩

theorem samplePoints_isSome (cloud : List (PointXYZ α)) (s : List Nat)
    (hl : s.length = 3) (hr : ∀ i ∈ s, i < cloud.length) :
    ∃ p1 p2 p3, samplePoints cloud s = some (p1, p2, p3) := by
  match s, hl with
  | [i1, i2, i3], _ =>
    have h1 : i1 < cloud.length := hr i1 (by simp)
    have h2 : i2 < cloud.length := hr i2 (by simp)
    have h3 : i3 < cloud.length := hr i3 (by simp)
    refine ⟨cloud[i1], cloud[i2], cloud[i3], ?_⟩
    simp [samplePoints, List.getElem?_eq_getElem, h1, h2, h3]

/-! ## Helper lemmas: the distance scan -/

theorem distanceLoop_spec (pl : PlaneCoefficients α) (tol : α) :
    ∀ (pts : List (PointXYZ α)) (j : Nat) (inliers : List Nat),
      inliers.Nodup → (∀ i ∈ inliers, i < j + pts.length) →
      (distanceLoop pl tol j pts inliers).Nodup ∧
      (∀ i ∈ distanceLoop pl tol j pts inliers, i < j + pts.length) ∧
      inliers <+: distanceLoop pl tol j pts inliers := by
  intro pts
  induction pts with
  | nil =>
    intro j inliers hnd hr
    exact ⟨hnd, hr, List.prefix_refl _⟩
  | cons pt pts ih =>
    intro j inliers hnd hr
    have hlen : j + (pt :: pts).length = (j + 1) + pts.length := by
      simp only [List.length_cons]; omega
    rw [hlen] at hr ⊢
    simp only [distanceLoop]
    split
    · exact ih (j + 1) inliers hnd hr
    · split
      · have hr2 : ∀ i ∈ setInsert inliers j, i < j + 1 + pts.length := by
          intro i hi
          rcases (mem_setInsert inliers j i).1 hi with h1 | h1
          · exact hr i h1
          · omega
        obtain ⟨h1, h2, h3⟩ := ih (j + 1) (setInsert inliers j) (nodup_setInsert _ _ hnd) hr2
        exact ⟨h1, h2, (prefix_setInsert inliers j).trans h3⟩
      · exact ih (j + 1) inliers hnd hr

theorem distanceLoop_none_within (pl : PlaneCoefficients α) (tol : α) :
    ∀ (pts : List (PointXYZ α)) (j : Nat) (inliers : List Nat),
      (∀ pt ∈ pts, withinTol pl tol pt = false) →
      distanceLoop pl tol j pts inliers = inliers := by
  intro pts
  induction pts with
  | nil => intro j inliers _; rfl
  | cons pt pts ih =>
    intro j inliers h
    have hpt : withinTol pl tol pt = false := h pt (by simp)
    have htl : ∀ q ∈ pts, withinTol pl tol q = false := fun q hq => h q (by simp [hq])
    simp only [distanceLoop, hpt]
    split
    · exact ih (j + 1) inliers htl
    · simpa using ih (j + 1) inliers htl

theorem distanceLoop_extends (pl : PlaneCoefficients α) (tol : α) :
    ∀ (pts : List (PointXYZ α)) (j : Nat) (inliers : List Nat),
      inliers <+: distanceLoop pl tol j pts inliers := by
  intro pts
  induction pts with
  | nil => intro j inliers; exact List.prefix_refl _
  | cons pt pts ih =>
    intro j inliers
    simp only [distanceLoop]
    split
    · exact ih (j + 1) inliers
    · split
      · exact (prefix_setInsert inliers j).trans (ih (j + 1) _)
      · exact ih (j + 1) inliers

theorem distanceLoop_all_within (pl : PlaneCoefficients α) (tol : α) :
    ∀ (pts : List (PointXYZ α)) (j : Nat) (inliers : List Nat),
      (∀ pt ∈ pts, withinTol pl tol pt = true) →
      ∀ i, j ≤ i → i < j + pts.length → i ∈ distanceLoop pl tol j pts inliers := by
  intro pts
  induction pts with
  | nil => intro j inliers _ i h1 h2; simp at h2; omega
  | cons pt pts ih =>
    intro j inliers h i h1 h2
    have hpt : withinTol pl tol pt = true := h pt (by simp)
    have htl : ∀ q ∈ pts, withinTol pl tol q = true := fun q hq => h q (by simp [hq])
    simp only [List.length_cons] at h2
    simp only [distanceLoop, hpt, if_true]
    by_cases hij : i = j
    · subst hij
      split
      · rename_i hmem
        exact (distanceLoop_extends pl tol pts (i + 1) inliers).subset hmem
      · exact (distanceLoop_extends pl tol pts (i + 1) _).subset
          ((mem_setInsert inliers i i).2 (Or.inr rfl))
    · split
      · exact ih (j + 1) inliers htl i (by omega) (by omega)
      · exact ih (j + 1) _ htl i (by omega) (by omega)

/-! ## Helper lemmas: one iteration and the main loop -/

theorem planeIteration_spec (cloud : List (PointXYZ α)) (tol : α) (rnd : List Nat)
    (h3 : 3 ≤ cloud.length) (inliers rest : List Nat)
    (h : planeIteration cloud tol rnd = .ok (inliers, rest)) :
    3 ≤ inliers.length ∧ inliers.Nodup ∧ (∀ i ∈ inliers, i < cloud.length) ∧
    ∃ sample, sampleLoop cloud.length [] rnd = some (sample, rest) ∧
      sample.length = 3 ∧ sample <+: inliers := by
  unfold planeIteration at h
  split at h
  · simp at h
  · rename_i s rest2 hs
    obtain ⟨hl, hnd, hr⟩ := sampleLoop_spec cloud.length (by omega) rnd [] s rest2 hs
      (by simp) List.nodup_nil (by simp)
    split at h
    · simp at h
    · rename_i p1 p2 p3 hp
      simp only [Except.ok.injEq, Prod.mk.injEq] at h
      obtain ⟨h1, h2⟩ := h
      subst h1 h2
      obtain ⟨g1, g2, g3⟩ := distanceLoop_spec (planeCoefficients p1 p2 p3) tol cloud 0 s hnd
        (by simpa using hr)
      refine ⟨?_, g1, by simpa using g2, s, hs, hl, g3⟩
      have := g3.length_le
      omega

theorem planeIteration_ne_outOfRange (cloud : List (PointXYZ α)) (tol : α) (rnd : List Nat)
    (h3 : 3 ≤ cloud.length) :
    planeIteration cloud tol rnd ≠ .error .OutOfRange ∧
    planeIteration cloud tol rnd ≠ .error .InsufficientPoints := by
  unfold planeIteration
  split
  · simp
  · rename_i s rest2 hs
    obtain ⟨hl, hnd, hr⟩ := sampleLoop_spec cloud.length (by omega) rnd [] s rest2 hs
      (by simp) List.nodup_nil (by simp)
    obtain ⟨p1, p2, p3, hp⟩ := samplePoints_isSome cloud s hl hr
    simp [hp]

theorem ransacLoop_eq_fold (cloud : List (PointXYZ α)) (tol : α) :
    ∀ (n : Nat) (rnd best : List Nat),
      ransacLoop cloud tol n rnd best =
        (iterationSets cloud tol n rnd).map (fun sets => sets.foldl keepBest best) := by
  intro n
  induction n with
  | zero => intro rnd best; rfl
  | succ n ih =>
    intro rnd best
    simp only [ransacLoop, iterationSets]
    cases hpi : planeIteration cloud tol rnd with
    | error e => rfl
    | ok r =>
      obtain ⟨inl, rest⟩ := r
      simp only [ih]
      cases iterationSets cloud tol n rest with
      | error e => rfl
      | ok sets => rfl

theorem iterationSets_spec (cloud : List (PointXYZ α)) (tol : α) (h3 : 3 ≤ cloud.length) :
    ∀ (n : Nat) (rnd : List Nat) (sets : List (List Nat)),
      iterationSets cloud tol n rnd = .ok sets →
      sets.length = n ∧
      ∀ s ∈ sets, 3 ≤ s.length ∧ s.Nodup ∧ ∀ i ∈ s, i < cloud.length := by
  intro n
  induction n with
  | zero =>
    intro rnd sets h
    simp only [iterationSets, Except.ok.injEq] at h
    subst h
    simp
  | succ n ih =>
    intro rnd sets h
    simp only [iterationSets] at h
    cases hpi : planeIteration cloud tol rnd with
    | error e => simp [hpi] at h
    | ok r =>
      obtain ⟨inl, rest⟩ := r
      simp only [hpi] at h
      cases hit : iterationSets cloud tol n rest with
      | error e => simp [hit] at h
      | ok sets2 =>
        simp only [hit, Except.ok.injEq] at h
        subst h
        obtain ⟨g1, g2⟩ := ih rest sets2 hit
        obtain ⟨k1, k2, k3, _⟩ := planeIteration_spec cloud tol rnd h3 inl rest hpi
        refine ⟨by simp [g1], ?_⟩
        intro s hs
        rcases List.mem_cons.1 hs with h1 | h1
        · subst h1; exact ⟨k1, k2, k3⟩
        · exact g2 s h1

/-- The fold of `keepBest` returns either the initial set, when no set of the
list is larger, or the earliest set of maximal length. -/
theorem foldl_keepBest (sets : List (List Nat)) :
    ∀ best : List Nat,
      (sets.foldl keepBest best = best ∧ ∀ s ∈ sets, s.length ≤ best.length) ∨
      ∃ k, ∃ hk : k < sets.length, sets.foldl keepBest best = sets[k] ∧
        best.length < sets[k].length ∧
        (∀ j, ∀ hj : j < sets.length, sets[j].length ≤ sets[k].length) ∧
        (∀ j, ∀ hj : j < sets.length, j < k → sets[j].length < sets[k].length) := by
  induction sets with
  | nil => intro best; left; simp
  | cons s sets ih =>
    intro best
    simp only [List.foldl_cons]
    by_cases hgt : s.length > best.length
    · have hkb : keepBest best s = s := by simp [keepBest, hgt]
      rw [hkb]
      rcases ih s with ⟨h1, h2⟩ | ⟨k, hk, h1, h2, h3, h4⟩
      · right
        refine ⟨0, by simp, by simpa using h1, by simpa using hgt, ?_, ?_⟩
        · intro j hj
          cases j with
          | zero => simp
          | succ j =>
            simp only [List.getElem_cons_succ, List.getElem_cons_zero]
            exact h2 _ (List.getElem_mem _)
        · intro j hj hj0; omega
      · right
        refine ⟨k + 1, by simp; omega, by simpa using h1, by simp; omega, ?_, ?_⟩
        · intro j hj
          cases j with
          | zero => simp; omega
          | succ j => simpa using h3 j (by simpa using hj)
        · intro j hj hjk
          cases j with
          | zero => simpa using h2
          | succ j => simpa using h4 j (by simpa using hj) (by omega)
    · have hkb : keepBest best s = best := by simp [keepBest, hgt]
      rw [hkb]
      rcases ih best with ⟨h1, h2⟩ | ⟨k, hk, h1, h2, h3, h4⟩
      · left
        refine ⟨h1, ?_⟩
        intro t ht
        rcases List.mem_cons.1 ht with h | h
        · subst h; omega
        · exact h2 t h
      · right
        refine ⟨k + 1, by simp; omega, by simpa using h1, by simpa using h2, ?_, ?_⟩
        · intro j hj
          cases j with
          | zero => simp; omega
          | succ j => simpa using h3 j (by simpa using hj)
        · intro j hj hjk
          cases j with
          | zero => simp; omega
          | succ j => simpa using h4 j (by simpa using hj) (by omega)

theorem iterationSets_error (cloud : List (PointXYZ α)) (tol : α) (h3 : 3 ≤ cloud.length) :
    ∀ (n : Nat) (rnd : List Nat) (e : Failure),
      iterationSets cloud tol n rnd = .error e → e = .RandExhausted := by
  intro n
  induction n with
  | zero => intro rnd e h; simp [iterationSets] at h
  | succ n ih =>
    intro rnd e h
    simp only [iterationSets] at h
    cases hpi : planeIteration cloud tol rnd with
    | error e2 =>
      simp only [hpi, Except.error.injEq] at h
      subst h
      have := planeIteration_ne_outOfRange cloud tol rnd h3
      rw [hpi] at this
      cases e2 <;> simp_all
    | ok r =>
      obtain ⟨inl, rest⟩ := r
      simp only [hpi] at h
      cases hit : iterationSets cloud tol n rest with
      | error e2 =>
        simp only [hit, Except.error.injEq] at h
        subst h
        exact ih rest e2 hit
      | ok sets2 => simp [hit] at h

theorem sampleLoop_cycle (numPoints : Nat) (h3 : 3 ≤ numPoints) (rest : List Nat) :
    sampleLoop numPoints [] (0 :: 1 :: 2 :: rest) = some ([0, 1, 2], rest) := by
  have h0 : 0 % numPoints = 0 := Nat.mod_eq_of_lt (by omega)
  have h1 : 1 % numPoints = 1 := Nat.mod_eq_of_lt (by omega)
  have h2 : 2 % numPoints = 2 := Nat.mod_eq_of_lt (by omega)
  cases rest <;> simp [sampleLoop, setInsert, h0, h1, h2]

theorem iterationSets_cycle (cloud : List (PointXYZ α)) (tol : α) (h3 : 3 ≤ cloud.length) :
    ∀ n : Nat, ∃ sets, iterationSets cloud tol n (cycleDraws n) = .ok sets := by
  intro n
  induction n with
  | zero => exact ⟨[], rfl⟩
  | succ n ih =>
    obtain ⟨sets, hsets⟩ := ih
    obtain ⟨p1, p2, p3, hp⟩ := samplePoints_isSome cloud [0, 1, 2] rfl
      (by intro i hi; simp at hi; omega)
    refine ⟨distanceLoop (planeCoefficients p1 p2 p3) tol 0 cloud [0, 1, 2] :: sets, ?_⟩
    simp only [iterationSets, cycleDraws, planeIteration, sampleLoop_cycle _ h3, hp, hsets]

theorem RansacPlane_eq_fold (cloud : List (PointXYZ α)) (maxIterations : Int) (tol : α)
    (rnd : List Nat) (h3 : 3 ≤ cloud.length) :
    RansacPlane cloud maxIterations tol rnd =
      (iterationSets cloud tol maxIterations.toNat rnd).map
        (fun sets => sets.foldl keepBest []) := by
  unfold RansacPlane
  rw [if_neg (by omega), ransacLoop_eq_fold]

/-- With at least one iteration over sets of three or more indices, the fold
from the empty set returns the earliest set of maximal length. -/
theorem foldl_keepBest_nil (sets : List (List Nat)) (hne : sets ≠ [])
    (hlen : ∀ s ∈ sets, 3 ≤ s.length) :
    ∃ k, ∃ hk : k < sets.length, sets.foldl keepBest [] = sets[k] ∧
      (∀ j, ∀ hj : j < sets.length, sets[j].length ≤ sets[k].length) ∧
      (∀ j, ∀ hj : j < sets.length, j < k → sets[j].length < sets[k].length) := by
  rcases foldl_keepBest sets [] with ⟨_, h2⟩ | ⟨k, hk, h1, _, h3, h4⟩
  · exfalso
    cases sets with
    | nil => exact hne rfl
    | cons s sets =>
      have a := h2 s (by simp)
      have b := hlen s (by simp)
      simp at a
      subst a
      simp at b
  · exact ⟨k, hk, h1, h3, h4⟩

/-! ## Claims about `RansacPlane` -/

/-- C3: for a cloud of at least 3 points and `maxIterations >= 1`, some
sequence of `rand()` values lets the run return, and every run either returns
or has used up the supplied `rand()` values; an inlier set that is returned
has at least 3 elements, no repeated element, and only elements below the
number of points of the cloud. -/
theorem RansacPlane_inliers_valid (cloud : List (PointXYZ α)) (maxIterations : Int)
    (distanceTol : α) (h3 : 3 ≤ cloud.length) (hm : 1 ≤ maxIterations) :
    (∃ rnd res, RansacPlane cloud maxIterations distanceTol rnd = .ok res) ∧
    ∀ rnd, RansacPlane cloud maxIterations distanceTol rnd = .error .RandExhausted ∨
      ∃ res, RansacPlane cloud maxIterations distanceTol rnd = .ok res ∧
        3 ≤ res.length ∧ res.Nodup ∧ ∀ i ∈ res, i < cloud.length := by
  constructor
  · obtain ⟨sets, hsets⟩ := iterationSets_cycle cloud distanceTol h3 maxIterations.toNat
    exact ⟨cycleDraws maxIterations.toNat, sets.foldl keepBest [], by
      rw [RansacPlane_eq_fold _ _ _ _ h3, hsets]; rfl⟩
  · intro rnd
    rw [RansacPlane_eq_fold _ _ _ _ h3]
    cases hit : iterationSets cloud distanceTol maxIterations.toNat rnd with
    | error e =>
      left
      rw [iterationSets_error cloud distanceTol h3 _ _ e hit]
      rfl
    | ok sets =>
      right
      obtain ⟨g1, g2⟩ := iterationSets_spec cloud distanceTol h3 _ _ sets hit
      have hne : sets ≠ [] := by
        intro h0
        subst h0
        simp at g1
        omega
      obtain ⟨k, hk, e1, _, _⟩ := foldl_keepBest_nil sets hne (fun s hs => (g2 s hs).1)
      refine ⟨sets.foldl keepBest [], rfl, ?_⟩
      rw [e1]
      exact g2 _ (List.getElem_mem _)

/-- Witness of C3 on four points of the plane `z = 1`. -/
theorem RansacPlane_inliers_valid_witness :
    (∃ rnd res, RansacPlane offsetPlaneCloud 2 1 rnd = .ok res) ∧
    ∀ rnd, RansacPlane offsetPlaneCloud 2 1 rnd = .error .RandExhausted ∨
      ∃ res, RansacPlane offsetPlaneCloud 2 1 rnd = .ok res ∧
        3 ≤ res.length ∧ res.Nodup ∧ ∀ i ∈ res, i < offsetPlaneCloud.length :=
  RansacPlane_inliers_valid offsetPlaneCloud 2 1 (by decide) (by decide)

/-- C6: `RansacPlane` fails with `InsufficientPoints` (the assertion
`numPoints >= 3`) exactly when the cloud has fewer than 3 points, whatever
`maxIterations`, `distanceTol` and the `rand()` values are. -/
theorem RansacPlane_insufficientPoints_iff (cloud : List (PointXYZ α)) (maxIterations : Int)
    (distanceTol : α) (rnd : List Nat) :
    RansacPlane cloud maxIterations distanceTol rnd = .error .InsufficientPoints ↔
      cloud.length < 3 := by
  constructor
  · intro h
    by_contra hlt
    have h3 : 3 ≤ cloud.length := by omega
    rw [RansacPlane_eq_fold _ _ _ _ h3] at h
    cases hit : iterationSets cloud distanceTol maxIterations.toNat rnd with
    | error e =>
      have := iterationSets_error cloud distanceTol h3 _ _ e hit
      subst this
      rw [hit] at h
      cases h
    | ok sets =>
      rw [hit] at h
      cases h
  · intro h
    unfold RansacPlane
    rw [if_pos h]

/-- C10: a returned inlier set is the set of the earliest iteration whose
inlier count is the maximum over all `maxIterations` iterations: no iteration
has a larger set, and every earlier iteration has a strictly smaller one. -/
theorem RansacPlane_earliest_maximum (cloud : List (PointXYZ α)) (maxIterations : Int)
    (distanceTol : α) (rnd res : List Nat) (h3 : 3 ≤ cloud.length) (hm : 1 ≤ maxIterations)
    (hrun : RansacPlane cloud maxIterations distanceTol rnd = .ok res) :
    ∃ sets, iterationSets cloud distanceTol maxIterations.toNat rnd = .ok sets ∧
      sets.length = maxIterations.toNat ∧
      ∃ k, ∃ hk : k < sets.length, res = sets[k] ∧
        (∀ j, ∀ hj : j < sets.length, sets[j].length ≤ sets[k].length) ∧
        (∀ j, ∀ hj : j < sets.length, j < k → sets[j].length < sets[k].length) := by
  rw [RansacPlane_eq_fold _ _ _ _ h3] at hrun
  cases hit : iterationSets cloud distanceTol maxIterations.toNat rnd with
  | error e =>
    rw [hit] at hrun
    cases hrun
  | ok sets =>
    rw [hit] at hrun
    obtain ⟨g1, g2⟩ := iterationSets_spec cloud distanceTol h3 _ _ sets hit
    have hne : sets ≠ [] := by
      intro h0
      subst h0
      simp at g1
      omega
    obtain ⟨k, hk, e1, e2, e3⟩ := foldl_keepBest_nil sets hne (fun s hs => (g2 s hs).1)
    have hres : res = sets.foldl keepBest [] := by
      cases hrun
      rfl
    exact ⟨sets, rfl, g1, k, hk, by rw [hres, e1], e2, e3⟩

/-- Witness of C10: three iterations on `groundCloud`; the first and the third
both find 4 inliers, the second finds 3, and the first is returned. -/
theorem RansacPlane_earliest_maximum_witness :
    RansacPlane groundCloud 3 0 [0, 1, 2, 0, 1, 3, 4, 2, 1] = .ok [0, 1, 2, 4] ∧
    ∃ sets, iterationSets groundCloud 0 (Int.toNat 3) [0, 1, 2, 0, 1, 3, 4, 2, 1] = .ok sets ∧
      sets.length = Int.toNat 3 ∧
      ∃ k, ∃ hk : k < sets.length, [0, 1, 2, 4] = sets[k] ∧
        (∀ j, ∀ hj : j < sets.length, sets[j].length ≤ sets[k].length) ∧
        (∀ j, ∀ hj : j < sets.length, j < k → sets[j].length < sets[k].length) :=
  ⟨rfl, RansacPlane_earliest_maximum groundCloud 3 0 [0, 1, 2, 0, 1, 3, 4, 2, 1] [0, 1, 2, 4]
    (by decide) (by decide) rfl⟩

/-- The plane expression at the first sampled point is `2 * D`, and the
coefficients satisfy `A*p1.x + B*p1.y + C*p1.z - D = 0`: the sampled plane is
`A*x + B*y + C*z - D = 0`. -/
theorem planeExpr_first_point (p1 p2 p3 : PointXYZ α) :
    planeExpr (planeCoefficients p1 p2 p3) p1 = 2 * (planeCoefficients p1 p2 p3).D ∧
    (planeCoefficients p1 p2 p3).A * p1.x + (planeCoefficients p1 p2 p3).B * p1.y +
      (planeCoefficients p1 p2 p3).C * p1.z - (planeCoefficients p1 p2 p3).D = 0 := by
  constructor
  · simp only [planeExpr, planeCoefficients]
    ring
  · simp only [planeCoefficients]
    ring

/-- The number `N` is a sum of squares, hence non-negative. -/
theorem planeCoefficients_N_nonneg (p1 p2 p3 : PointXYZ α) :
    0 ≤ (planeCoefficients p1 p2 p3).N := by
  simp only [planeCoefficients, Vect3.normSq]
  exact add_nonneg (add_nonneg (mul_self_nonneg _) (mul_self_nonneg _)) (mul_self_nonneg _)

/-- Over the reals and for `N > 0`, the comparison of the source,
`|e| * (1 / sqrt N) <= tol`, is the comparison `withinTol` makes. -/
theorem distance_le_iff_real (e tol N : ℝ) (hN : 0 < N) :
    |e| * (1 / Real.sqrt N) ≤ tol ↔ 0 ≤ tol ∧ e * e ≤ tol * tol * N := by
  have hs : 0 < Real.sqrt N := Real.sqrt_pos.2 hN
  have hsq : Real.sqrt N * Real.sqrt N = N := Real.mul_self_sqrt hN.le
  rw [mul_one_div, div_le_iff₀ hs]
  constructor
  · intro h
    have ht : 0 ≤ tol := by
      by_contra hneg
      push_neg at hneg
      have : tol * Real.sqrt N < 0 := mul_neg_of_neg_of_pos hneg hs
      have := abs_nonneg e
      linarith
    refine ⟨ht, ?_⟩
    have h2 : |e| * |e| ≤ (tol * Real.sqrt N) * (tol * Real.sqrt N) :=
      mul_self_le_mul_self (abs_nonneg e) h
    rw [abs_mul_abs_self] at h2
    calc e * e ≤ (tol * Real.sqrt N) * (tol * Real.sqrt N) := h2
      _ = tol * tol * (Real.sqrt N * Real.sqrt N) := by ring
      _ = tol * tol * N := by rw [hsq]
  · rintro ⟨ht, h⟩
    have h2 : |e| * |e| ≤ (tol * Real.sqrt N) * (tol * Real.sqrt N) := by
      rw [abs_mul_abs_self]
      calc e * e ≤ tol * tol * N := h
        _ = tol * tol * (Real.sqrt N * Real.sqrt N) := by rw [hsq]
        _ = (tol * Real.sqrt N) * (tol * Real.sqrt N) := by ring
    exact (mul_self_le_mul_self_iff (abs_nonneg e) (mul_nonneg ht hs.le)).2 h2

/-- The test `withinTol` on real coordinates is the test of lines 175-178. -/
theorem withinTol_iff_real (p1 p2 p3 pt : PointXYZ ℝ) (tol : ℝ) :
    withinTol (planeCoefficients p1 p2 p3) tol pt = true ↔
      (planeCoefficients p1 p2 p3).N ≠ 0 ∧
      |planeExpr (planeCoefficients p1 p2 p3) pt| *
        (1 / Real.sqrt (planeCoefficients p1 p2 p3).N) ≤ tol := by
  simp only [withinTol, decide_eq_true_eq]
  constructor
  · rintro ⟨h0, h⟩
    have hN : 0 < (planeCoefficients p1 p2 p3).N :=
      lt_of_le_of_ne (planeCoefficients_N_nonneg p1 p2 p3) (Ne.symm h0)
    exact ⟨h0, (distance_le_iff_real _ _ _ hN).2 h⟩
  · rintro ⟨h0, h⟩
    have hN : 0 < (planeCoefficients p1 p2 p3).N :=
      lt_of_le_of_ne (planeCoefficients_N_nonneg p1 p2 p3) (Ne.symm h0)
    exact ⟨h0, (distance_le_iff_real _ _ _ hN).1 h⟩

/-- Exchanging two of the three sampled points negates the plane expression
and keeps `N`, so the distance test does not depend on the order in which the
sample set is iterated. -/
theorem withinTol_sample_order (p1 p2 p3 pt : PointXYZ α) (tol : α) :
    withinTol (planeCoefficients p2 p1 p3) tol pt = withinTol (planeCoefficients p1 p2 p3) tol pt ∧
    withinTol (planeCoefficients p1 p3 p2) tol pt = withinTol (planeCoefficients p1 p2 p3) tol pt := by
  have n1 : (planeCoefficients p2 p1 p3).N = (planeCoefficients p1 p2 p3).N := by
    simp only [planeCoefficients, Vect3.normSq, Vect3.cross, Vect3.sub, Vect3.ofPoint]
    ring
  have n2 : (planeCoefficients p1 p3 p2).N = (planeCoefficients p1 p2 p3).N := by
    simp only [planeCoefficients, Vect3.normSq, Vect3.cross, Vect3.sub, Vect3.ofPoint]
    ring
  have e1 : planeExpr (planeCoefficients p2 p1 p3) pt =
      -planeExpr (planeCoefficients p1 p2 p3) pt := by
    simp only [planeExpr, planeCoefficients, Vect3.cross, Vect3.sub, Vect3.ofPoint]
    ring
  have e2 : planeExpr (planeCoefficients p1 p3 p2) pt =
      -planeExpr (planeCoefficients p1 p2 p3) pt := by
    simp only [planeExpr, planeCoefficients, Vect3.cross, Vect3.sub, Vect3.ofPoint]
    ring
  constructor
  · simp only [withinTol, n1, e1, neg_mul_neg]
  · simp only [withinTol, n2, e2, neg_mul_neg]

/-- At a point of the plane through the three sampled points the plane
expression is `2 * D`: the test passes there exactly when `N` is not zero,
`0 <= distanceTol` and `4 * D * D <= distanceTol * distanceTol * N`. -/
theorem planeExpr_on_sampled_plane (p1 p2 p3 pt : PointXYZ α)
    (hpt : (planeCoefficients p1 p2 p3).A * (pt.x - p1.x) +
      (planeCoefficients p1 p2 p3).B * (pt.y - p1.y) +
      (planeCoefficients p1 p2 p3).C * (pt.z - p1.z) = 0) :
    planeExpr (planeCoefficients p1 p2 p3) pt = 2 * (planeCoefficients p1 p2 p3).D := by
  simp only [planeExpr, planeCoefficients, Vect3.cross, Vect3.sub, Vect3.ofPoint] at hpt ⊢
  linear_combination hpt

/-- For sampled points and a scanned point that all lie on one plane through
the origin, `a*x + b*y + c*z = 0`, the plane expression is `0`. -/
theorem planeExpr_plane_through_origin (p1 p2 p3 pt : PointXYZ α) (a b c : α)
    (hn : a ≠ 0 ∨ b ≠ 0 ∨ c ≠ 0)
    (h1 : a * p1.x + b * p1.y + c * p1.z = 0) (h2 : a * p2.x + b * p2.y + c * p2.z = 0)
    (h3 : a * p3.x + b * p3.y + c * p3.z = 0) (h : a * pt.x + b * pt.y + c * pt.z = 0) :
    planeExpr (planeCoefficients p1 p2 p3) pt = 0 := by
  obtain ⟨x1, y1, z1⟩ := p1
  obtain ⟨x2, y2, z2⟩ := p2
  obtain ⟨x3, y3, z3⟩ := p3
  obtain ⟨x, y, z⟩ := pt
  simp only [planeExpr, planeCoefficients, Vect3.cross, Vect3.sub, Vect3.ofPoint] at h1 h2 h3 h ⊢
  have ea : a * (((y2 - y1) * (z3 - z1) - (z2 - z1) * (y3 - y1)) * x +
      ((z2 - z1) * (x3 - x1) - (x2 - x1) * (z3 - z1)) * y +
      ((x2 - x1) * (y3 - y1) - (y2 - y1) * (x3 - x1)) * z +
      (((y2 - y1) * (z3 - z1) - (z2 - z1) * (y3 - y1)) * x1 +
        ((z2 - z1) * (x3 - x1) - (x2 - x1) * (z3 - z1)) * y1 +
        ((x2 - x1) * (y3 - y1) - (y2 - y1) * (x3 - x1)) * z1)) = 0 := by
    linear_combination
      ((y3 - y1) * (z + z1) - (z3 - z1) * (y + y1)) * (h2 - h1) +
      ((y + y1) * (z2 - z1) - (z + z1) * (y2 - y1)) * (h3 - h1) +
      ((y2 - y1) * (z3 - z1) - (z2 - z1) * (y3 - y1)) * (h + h1)
  have eb : b * (((y2 - y1) * (z3 - z1) - (z2 - z1) * (y3 - y1)) * x +
      ((z2 - z1) * (x3 - x1) - (x2 - x1) * (z3 - z1)) * y +
      ((x2 - x1) * (y3 - y1) - (y2 - y1) * (x3 - x1)) * z +
      (((y2 - y1) * (z3 - z1) - (z2 - z1) * (y3 - y1)) * x1 +
        ((z2 - z1) * (x3 - x1) - (x2 - x1) * (z3 - z1)) * y1 +
        ((x2 - x1) * (y3 - y1) - (y2 - y1) * (x3 - x1)) * z1)) = 0 := by
    linear_combination
      ((z3 - z1) * (x + x1) - (x3 - x1) * (z + z1)) * (h2 - h1) +
      ((z + z1) * (x2 - x1) - (x + x1) * (z2 - z1)) * (h3 - h1) +
      ((z2 - z1) * (x3 - x1) - (x2 - x1) * (z3 - z1)) * (h + h1)
  have ec : c * (((y2 - y1) * (z3 - z1) - (z2 - z1) * (y3 - y1)) * x +
      ((z2 - z1) * (x3 - x1) - (x2 - x1) * (z3 - z1)) * y +
      ((x2 - x1) * (y3 - y1) - (y2 - y1) * (x3 - x1)) * z +
      (((y2 - y1) * (z3 - z1) - (z2 - z1) * (y3 - y1)) * x1 +
        ((z2 - z1) * (x3 - x1) - (x2 - x1) * (z3 - z1)) * y1 +
        ((x2 - x1) * (y3 - y1) - (y2 - y1) * (x3 - x1)) * z1)) = 0 := by
    linear_combination
      ((x3 - x1) * (y + y1) - (y3 - y1) * (x + x1)) * (h2 - h1) +
      ((x + x1) * (y2 - y1) - (y + y1) * (x2 - x1)) * (h3 - h1) +
      ((x2 - x1) * (y3 - y1) - (y2 - y1) * (x3 - x1)) * (h + h1)
  rcases hn with ha | hb | hc
  · exact (mul_eq_zero.1 ea).resolve_left ha
  · exact (mul_eq_zero.1 eb).resolve_left hb
  · exact (mul_eq_zero.1 ec).resolve_left hc

/-- C9: for the sampled points `p1 = (0,0,1)`, `p2 = (1,0,1)`, `p3 = (0,1,1)`
the iteration computes `(A, B, C) = (0, 0, 1)`, `D = 1` and `N = 1`, and the
plane expression `A*x + B*y + C*z + D` at `p1` is `2`, not `0`. -/
theorem planeCoefficients_miss_first_point :
    planeCoefficients (⟨0, 0, 1⟩ : PointXYZ ℤ) ⟨1, 0, 1⟩ ⟨0, 1, 1⟩ = ⟨0, 0, 1, 1, 1⟩ ∧
    planeExpr (planeCoefficients (⟨0, 0, 1⟩ : PointXYZ ℤ) ⟨1, 0, 1⟩ ⟨0, 1, 1⟩) ⟨0, 0, 1⟩ = 2 ∧
    planeExpr (planeCoefficients (⟨0, 0, 1⟩ : PointXYZ ℤ) ⟨1, 0, 1⟩ ⟨0, 1, 1⟩) ⟨0, 0, 1⟩ ≠ 0 := by
  decide

/-- C1: the four points of `offsetPlaneCloud` lie on the plane `z = 1`, the
sampled triple `0, 1, 2` is not collinear, `distanceTol = 1 > 0` and
`maxIterations = 1`, yet the returned inlier set is `0, 1, 2`: index `3` is
left out. -/
theorem RansacPlane_offset_plane_drops_point :
    3 ≤ offsetPlaneCloud.length ∧ (0 : ℤ) < 1 ∧
    (∀ p ∈ offsetPlaneCloud, 0 * p.x + 0 * p.y + 1 * p.z + (-1) = 0) ∧
    sampledTriples offsetPlaneCloud.length (Int.toNat 1) [0, 1, 2] = some [[0, 1, 2]] ∧
    zeroNormal offsetPlaneCloud [0, 1, 2] = false ∧
    RansacPlane offsetPlaneCloud 1 1 [0, 1, 2] = .ok [0, 1, 2] ∧
    3 < offsetPlaneCloud.length ∧ 3 ∉ [0, 1, 2] :=
  ⟨by decide, by decide, by decide, by decide, by decide, rfl, by decide, by decide⟩

/-! ## Helper lemmas: splitting a cloud by an index set -/

theorem splitLoop_eq {PointT : Type} (inliers : List Nat) :
    ∀ (pts : List PointT) (index : Nat) (a b : List PointT),
      splitLoop inliers index pts (a, b) =
        (a ++ ((pts.enumFrom index).filter (fun q => decide (q.1 ∈ inliers))).map Prod.snd,
         b ++ ((pts.enumFrom index).filter (fun q => !decide (q.1 ∈ inliers))).map Prod.snd) := by
  intro pts
  induction pts with
  | nil => intro index a b; simp [splitLoop]
  | cons pt pts ih =>
    intro index a b
    simp only [splitLoop]
    split
    · rename_i h
      rw [ih]
      simp [List.enumFrom_cons, List.filter_cons, h]
    · rename_i h
      rw [ih]
      simp [List.enumFrom_cons, List.filter_cons, h]

theorem mainSplit_eq {PointT : Type} (cloud : List PointT) (inliers : List Nat) :
    mainSplit cloud inliers =
      (filterByIndex (fun i => decide (i ∈ inliers)) cloud, extractNegative inliers cloud) := by
  unfold mainSplit filterByIndex extractNegative
  rw [splitLoop_eq]
  simp [List.enum]

theorem enumFrom_filter_points {PointT : Type} (keep : Nat → Bool) :
    ∀ (pts : List PointT) (j : Nat),
      (((pts.enumFrom j).filter (fun q => keep q.1)).map Prod.snd).map some =
        ((List.range' j pts.length).filter keep).map (fun i => pts[i - j]?) := by
  intro pts
  induction pts with
  | nil => intro j; simp
  | cons pt pts ih =>
    intro j
    have htl : ((List.range' (j + 1) pts.length).filter keep).map
          (fun i => (pt :: pts)[i - j]?) =
        ((List.range' (j + 1) pts.length).filter keep).map (fun i => pts[i - (j + 1)]?) := by
      apply List.map_congr_left
      intro i hi
      have hi2 := (List.mem_filter.1 hi).1
      rw [List.mem_range'_1] at hi2
      have : i - j = (i - (j + 1)) + 1 := by omega
      rw [this, List.getElem?_cons_succ]
    simp only [List.enumFrom_cons, List.length_cons, List.range'_succ, List.filter_cons]
    cases hk : keep j with
    | true =>
      simp only [if_true, List.map_cons, htl, ih (j + 1)]
      simp
    | false =>
      simp only [Bool.false_eq_true, if_false, htl, ih (j + 1)]

theorem filterByIndex_points {PointT : Type} (keep : Nat → Bool) (cloud : List PointT) :
    (filterByIndex keep cloud).map some =
      ((List.range cloud.length).filter keep).map (fun i => cloud[i]?) := by
  unfold filterByIndex
  rw [List.enum, enumFrom_filter_points keep cloud 0, List.range_eq_range']
  simp

theorem extractNegative_eq {PointT : Type} (indices : List Nat) (cloud : List PointT) :
    extractNegative indices cloud = filterByIndex (fun i => !decide (i ∈ indices)) cloud := rfl

theorem gatherPoints_points {PointT : Type} (cloud : List PointT) :
    ∀ indices : List Nat, (∀ i ∈ indices, i < cloud.length) →
      ∃ pts, gatherPoints cloud indices = some pts ∧
        pts.map some = indices.map (fun i => cloud[i]?) := by
  intro indices
  induction indices with
  | nil => intro _; exact ⟨[], rfl, rfl⟩
  | cons i rest ih =>
    intro h
    obtain ⟨pts, h1, h2⟩ := ih (fun k hk => h k (by simp [hk]))
    have hi : i < cloud.length := h i (by simp)
    refine ⟨cloud[i] :: pts, ?_, ?_⟩
    · simp [gatherPoints, h1, List.getElem?_eq_getElem hi]
    · simp [h2, List.getElem?_eq_getElem hi]

/-- The indices kept and the indices dropped by an index set with unique
in-range elements cover each position of the cloud exactly once. -/
theorem index_partition (n : Nat) (inliers : List Nat) (hnd : inliers.Nodup)
    (hin : ∀ i ∈ inliers, i < n) :
    ((List.range n).filter (fun i => decide (i ∈ inliers))).Perm inliers ∧
    (inliers ++ (List.range n).filter (fun i => !decide (i ∈ inliers))).Perm (List.range n) := by
  have h1 : ((List.range n).filter (fun i => decide (i ∈ inliers))).Perm inliers := by
    rw [List.perm_ext_iff_of_nodup ((List.nodup_range n).filter _) hnd]
    intro a
    simp only [List.mem_filter, List.mem_range, decide_eq_true_eq]
    constructor
    · exact fun h => h.2
    · exact fun h => ⟨hin a h, h⟩
  refine ⟨h1, ?_⟩
  exact (List.Perm.append_right _ h1.symm).trans
    (List.filter_append_perm (fun i => decide (i ∈ inliers)) (List.range n))

theorem length_map_some_eq {PointT : Type} (pts : List PointT) (idx : List Nat)
    (f : Nat → Option PointT) (h : pts.map some = idx.map f) : pts.length = idx.length := by
  have := congrArg List.length h
  simpa using this

theorem split_partition {PointT : Type} (cloud : List PointT) (inliers : List Nat)
    (hnd : inliers.Nodup) (hin : ∀ i ∈ inliers, i < cloud.length) :
    ∃ inlierIdx outlierIdx : List Nat,
      (filterByIndex (fun i => decide (i ∈ inliers)) cloud).map some =
        inlierIdx.map (fun i => cloud[i]?) ∧
      (extractNegative inliers cloud).map some = outlierIdx.map (fun i => cloud[i]?) ∧
      inlierIdx.Perm inliers ∧
      (∀ i, i ∈ outlierIdx ↔ i < cloud.length ∧ i ∉ inliers) ∧
      (inliers ++ outlierIdx).Perm (List.range cloud.length) ∧
      (filterByIndex (fun i => decide (i ∈ inliers)) cloud).length = inliers.length ∧
      (filterByIndex (fun i => decide (i ∈ inliers)) cloud).length +
        (extractNegative inliers cloud).length = cloud.length := by
  obtain ⟨g1, g2⟩ := index_partition cloud.length inliers hnd hin
  have e1 := filterByIndex_points (fun i => decide (i ∈ inliers)) cloud
  have e2 := filterByIndex_points (fun i => !decide (i ∈ inliers)) cloud
  rw [← extractNegative_eq] at e2
  have l1 := length_map_some_eq _ _ _ e1
  have l2 := length_map_some_eq _ _ _ e2
  have l3 := g1.length_eq
  have l4 := g2.length_eq
  simp only [List.length_append, List.length_range] at l4
  refine ⟨_, _, e1, e2, g1, ?_, g2, by omega, by omega⟩
  intro i
  simp [List.mem_filter]

theorem RansacPlane_ok_valid (cloud : List (PointXYZ α)) (maxIterations : Int) (tol : α)
    (rnd res : List Nat) (h : RansacPlane cloud maxIterations tol rnd = .ok res) :
    res.Nodup ∧ ∀ i ∈ res, i < cloud.length := by
  by_cases hlt : cloud.length < 3
  · unfold RansacPlane at h
    rw [if_pos hlt] at h
    cases h
  · have h3 : 3 ≤ cloud.length := by omega
    rw [RansacPlane_eq_fold _ _ _ _ h3] at h
    cases hit : iterationSets cloud tol maxIterations.toNat rnd with
    | error e =>
      rw [hit] at h
      cases h
    | ok sets =>
      rw [hit] at h
      have hres : res = sets.foldl keepBest [] := by
        cases h
        rfl
      obtain ⟨_, g2⟩ := iterationSets_spec cloud tol h3 _ _ sets hit
      rcases foldl_keepBest sets [] with ⟨e1, _⟩ | ⟨k, hk, e1, _⟩
      · rw [hres, e1]
        simp
      · rw [hres, e1]
        exact (g2 _ (List.getElem_mem _)).2

/-! ## Claims about `SeparateClouds` and the split of `main` -/

/-- C2: for an inlier index list with unique in-range indices,
`SeparateClouds` returns a plane cloud holding exactly the points at the
inlier indices and an obstacle cloud holding exactly the points at all other
indices; the two index lists together are a rearrangement of `0 .. size-1`
(each position exactly once) and the sizes add up to the size of the cloud.
The split of `main` does the same for every inlier set that `RansacPlane`
returns. -/
theorem SeparateClouds_partition (cloud : List (PointXYZ α)) (inliers : List Nat)
    (hnd : inliers.Nodup) (hin : ∀ i ∈ inliers, i < cloud.length) :
    (∃ planeCloud obstacleCloud, ∃ obstacleIdx : List Nat,
      SeparateClouds inliers cloud = some (planeCloud, obstacleCloud) ∧
      planeCloud.map some = inliers.map (fun i => cloud[i]?) ∧
      obstacleCloud.map some = obstacleIdx.map (fun i => cloud[i]?) ∧
      (∀ i, i ∈ obstacleIdx ↔ i < cloud.length ∧ i ∉ inliers) ∧
      (inliers ++ obstacleIdx).Perm (List.range cloud.length) ∧
      planeCloud.length + obstacleCloud.length = cloud.length) ∧
    (∀ (maxIterations : Int) (distanceTol : α) (rnd res : List Nat),
      RansacPlane cloud maxIterations distanceTol rnd = .ok res →
      ∃ inlierIdx outlierIdx : List Nat,
        (mainSplit cloud res).1.map some = inlierIdx.map (fun i => cloud[i]?) ∧
        (mainSplit cloud res).2.map some = outlierIdx.map (fun i => cloud[i]?) ∧
        inlierIdx.Perm res ∧
        (∀ i, i ∈ outlierIdx ↔ i < cloud.length ∧ i ∉ res) ∧
        (inlierIdx ++ outlierIdx).Perm (List.range cloud.length) ∧
        (mainSplit cloud res).1.length + (mainSplit cloud res).2.length = cloud.length) := by
  constructor
  · obtain ⟨planeCloud, hp1, hp2⟩ := gatherPoints_points cloud inliers hin
    obtain ⟨inlierIdx, outlierIdx, _, e2, _, e4, e5, e6, e7⟩ :=
      split_partition cloud inliers hnd hin
    refine ⟨planeCloud, extractNegative inliers cloud, outlierIdx, ?_, hp2, e2, e4, e5, ?_⟩
    · simp [SeparateClouds, hp1]
    · have := length_map_some_eq _ _ _ hp2
      omega
  · intro maxIterations distanceTol rnd res hrun
    obtain ⟨v1, v2⟩ := RansacPlane_ok_valid cloud maxIterations distanceTol rnd res hrun
    obtain ⟨inlierIdx, outlierIdx, e1, e2, e3, e4, e5, _, e7⟩ :=
      split_partition cloud res v1 v2
    rw [mainSplit_eq]
    exact ⟨inlierIdx, outlierIdx, e1, e2, e3, e4,
      (List.Perm.append_right _ e3).trans e5, e7⟩

/-- Witness of C2: `groundCloud` with the inlier list `4, 0`. -/
theorem SeparateClouds_partition_witness :
    (∃ planeCloud obstacleCloud, ∃ obstacleIdx : List Nat,
      SeparateClouds [4, 0] groundCloud = some (planeCloud, obstacleCloud) ∧
      planeCloud.map some = [4, 0].map (fun i => groundCloud[i]?) ∧
      obstacleCloud.map some = obstacleIdx.map (fun i => groundCloud[i]?) ∧
      (∀ i, i ∈ obstacleIdx ↔ i < groundCloud.length ∧ i ∉ [4, 0]) ∧
      ([4, 0] ++ obstacleIdx).Perm (List.range groundCloud.length) ∧
      planeCloud.length + obstacleCloud.length = groundCloud.length) ∧
    (∀ (maxIterations : Int) (distanceTol : ℤ) (rnd res : List Nat),
      RansacPlane groundCloud maxIterations distanceTol rnd = .ok res →
      ∃ inlierIdx outlierIdx : List Nat,
        (mainSplit groundCloud res).1.map some = inlierIdx.map (fun i => groundCloud[i]?) ∧
        (mainSplit groundCloud res).2.map some = outlierIdx.map (fun i => groundCloud[i]?) ∧
        inlierIdx.Perm res ∧
        (∀ i, i ∈ outlierIdx ↔ i < groundCloud.length ∧ i ∉ res) ∧
        (inlierIdx ++ outlierIdx).Perm (List.range groundCloud.length) ∧
        (mainSplit groundCloud res).1.length + (mainSplit groundCloud res).2.length =
          groundCloud.length) :=
  SeparateClouds_partition groundCloud [4, 0] (by decide) (by decide)

/-- C5, as stated, fails: with the unique in-range inlier list `4, 0` the plane
cloud of `groundCloud` is point 4 followed by point 0, which is not the order
of the original cloud. -/
theorem SeparateClouds_plane_not_cloud_order :
    [4, 0].Nodup ∧ (∀ i ∈ [4, 0], i < groundCloud.length) ∧
    SeparateClouds [4, 0] groundCloud =
      some ([⟨1, 1, 0⟩, ⟨0, 0, 0⟩], [⟨1, 0, 0⟩, ⟨0, 1, 0⟩, ⟨0, 0, 5⟩]) ∧
    ¬ List.Sublist [(⟨1, 1, 0⟩ : PointXYZ ℤ), ⟨0, 0, 0⟩] groundCloud ∧
    filterByIndex (fun i => decide (i ∈ [4, 0])) groundCloud =
      [(⟨0, 0, 0⟩ : PointXYZ ℤ), ⟨1, 1, 0⟩] := by
  decide

/-- C5, amended: for an inlier index list with unique in-range indices the
obstacle cloud lists the remaining points in the order they occur in the
original cloud; the plane cloud lists the inlier points in the order of the
inlier index list, which is the order of the original cloud when the index
list is ascending. -/
theorem SeparateClouds_order (cloud : List (PointXYZ α)) (inliers : List Nat)
    (hnd : inliers.Nodup) (hin : ∀ i ∈ inliers, i < cloud.length) :
    ∃ planeCloud obstacleCloud,
      SeparateClouds inliers cloud = some (planeCloud, obstacleCloud) ∧
      planeCloud.map some = inliers.map (fun i => cloud[i]?) ∧
      obstacleCloud.map some =
        ((List.range cloud.length).filter (fun i => !decide (i ∈ inliers))).map
          (fun i => cloud[i]?) ∧
      obstacleCloud.Sublist cloud ∧
      (inliers.Sorted (· < ·) →
        planeCloud.map some =
          ((List.range cloud.length).filter (fun i => decide (i ∈ inliers))).map
            (fun i => cloud[i]?) ∧
        planeCloud.Sublist cloud) := by
  obtain ⟨planeCloud, hp1, hp2⟩ := gatherPoints_points cloud inliers hin
  have e2 := filterByIndex_points (fun i => !decide (i ∈ inliers)) cloud
  rw [← extractNegative_eq] at e2
  have hsub : ∀ keep : Nat → Bool, (filterByIndex keep cloud).Sublist cloud := by
    intro keep
    unfold filterByIndex
    have h1 : ((cloud.enum.filter (fun q => keep q.1)).map Prod.snd).Sublist
        (cloud.enum.map Prod.snd) := (List.filter_sublist _).map _
    rwa [List.enum_map_snd] at h1
  refine ⟨planeCloud, extractNegative inliers cloud, by simp [SeparateClouds, hp1], hp2, e2,
    hsub (fun i => !decide (i ∈ inliers)), ?_⟩
  intro hsorted
  have hperm := (index_partition cloud.length inliers hnd hin).1
  have heq : (List.range cloud.length).filter (fun i => decide (i ∈ inliers)) = inliers :=
    List.eq_of_perm_of_sorted hperm ((List.sorted_lt_range _).filter _) hsorted
  have e1 := filterByIndex_points (fun i => decide (i ∈ inliers)) cloud
  rw [heq] at e1 ⊢
  refine ⟨hp2, ?_⟩
  have : planeCloud = filterByIndex (fun i => decide (i ∈ inliers)) cloud := by
    apply List.map_injective_iff.2 (Option.some_injective _)
    rw [hp2, e1]
  rw [this]
  exact hsub _

/-- Witness of the amended C5: `groundCloud` with the ascending inlier list
`0, 4`. -/
theorem SeparateClouds_order_witness :
    ∃ planeCloud obstacleCloud,
      SeparateClouds [0, 4] groundCloud = some (planeCloud, obstacleCloud) ∧
      planeCloud.map some = [0, 4].map (fun i => groundCloud[i]?) ∧
      obstacleCloud.map some =
        ((List.range groundCloud.length).filter (fun i => !decide (i ∈ [0, 4]))).map
          (fun i => groundCloud[i]?) ∧
      obstacleCloud.Sublist groundCloud ∧
      ([0, 4].Sorted (· < ·) →
        planeCloud.map some =
          ((List.range groundCloud.length).filter (fun i => decide (i ∈ [0, 4]))).map
            (fun i => groundCloud[i]?) ∧
        planeCloud.Sublist groundCloud) :=
  SeparateClouds_order groundCloud [0, 4] (by decide) (by decide)

/-! ## Degenerate samples -/

theorem withinTol_zero_normal (pl : PlaneCoefficients α) (tol : α) (pt : PointXYZ α)
    (hN : pl.N = 0) : withinTol pl tol pt = false := by
  simp [withinTol, hN]

theorem iterationSets_degenerate (cloud : List (PointXYZ α)) (tol : α) (h3 : 3 ≤ cloud.length) :
    ∀ (n : Nat) (rnd : List Nat) (samples : List (List Nat)),
      sampledTriples cloud.length n rnd = some samples →
      (∀ s ∈ samples, zeroNormal cloud s = true) →
      iterationSets cloud tol n rnd = .ok samples ∧ samples.length = n ∧
        ∀ s ∈ samples, s.length = 3 ∧ s.Nodup ∧ ∀ i ∈ s, i < cloud.length := by
  intro n
  induction n with
  | zero =>
    intro rnd samples h _
    simp only [sampledTriples, Option.some.injEq] at h
    subst h
    simp [iterationSets]
  | succ n ih =>
    intro rnd samples h hz
    simp only [sampledTriples] at h
    cases hsl : sampleLoop cloud.length [] rnd with
    | none => simp [hsl] at h
    | some r =>
      obtain ⟨sample, rest⟩ := r
      simp only [hsl] at h
      cases hst : sampledTriples cloud.length n rest with
      | none => simp [hst] at h
      | some samples2 =>
        simp only [hst, Option.some.injEq] at h
        subst h
        obtain ⟨g1, g2, g3⟩ := ih rest samples2 hst (fun s hs => hz s (by simp [hs]))
        obtain ⟨hl, hnd, hr⟩ := sampleLoop_spec cloud.length (by omega) rnd [] sample rest hsl
          (by simp) List.nodup_nil (by simp)
        obtain ⟨p1, p2, p3, hp⟩ := samplePoints_isSome cloud sample hl hr
        have hzero : (planeCoefficients p1 p2 p3).N = 0 := by
          have := hz sample (by simp)
          simpa [zeroNormal, hp] using this
        have hscan : distanceLoop (planeCoefficients p1 p2 p3) tol 0 cloud sample = sample :=
          distanceLoop_none_within _ _ _ _ _
            (fun pt _ => withinTol_zero_normal _ _ _ hzero)
        refine ⟨?_, by simp [g2], ?_⟩
        · simp only [iterationSets, planeIteration, hsl, hp, hscan, g1]
        · intro s hs
          rcases List.mem_cons.1 hs with h1 | h1
          · subst h1; exact ⟨hl, hnd, hr⟩
          · exact g3 s h1

/-- C4, as stated, fails: every triple sampled from the collinear points of
`lineCloud` yields a zero-length normal, and the returned inlier set is the
first sample `0, 1, 2`, not the empty set; the plane cloud holds three points. -/
theorem RansacPlane_degenerate_not_empty :
    3 ≤ lineCloud.length ∧
    sampledTriples lineCloud.length (Int.toNat 2) [0, 1, 2, 1, 2, 3] =
      some [[0, 1, 2], [1, 2, 3]] ∧
    (∀ s ∈ [[0, 1, 2], [1, 2, 3]], zeroNormal lineCloud s = true) ∧
    RansacPlane lineCloud 2 1 [0, 1, 2, 1, 2, 3] = .ok [0, 1, 2] ∧
    [0, 1, 2] ≠ ([] : List Nat) ∧
    mainSplit lineCloud [0, 1, 2] = ([⟨0, 0, 0⟩, ⟨1, 0, 0⟩, ⟨2, 0, 0⟩], [⟨3, 0, 0⟩]) :=
  ⟨by decide, by decide, by decide, rfl, by decide, by decide⟩

/-- C4, amended: when every sampled triple yields a zero-length normal, no
iteration adds a point to its sample, and the returned inlier set is the set
of the three indices sampled in the first iteration; the plane cloud of `main`
then holds those three points and the obstacle cloud the other
`numPoints - 3`. -/
theorem RansacPlane_all_degenerate (cloud : List (PointXYZ α)) (maxIterations : Int)
    (distanceTol : α) (rnd : List Nat) (samples : List (List Nat))
    (h3 : 3 ≤ cloud.length) (hm : 1 ≤ maxIterations)
    (hs : sampledTriples cloud.length maxIterations.toNat rnd = some samples)
    (hz : ∀ s ∈ samples, zeroNormal cloud s = true) :
    ∃ first, samples.head? = some first ∧ first.length = 3 ∧
      RansacPlane cloud maxIterations distanceTol rnd = .ok first ∧
      (mainSplit cloud first).1.length = 3 ∧
      (mainSplit cloud first).2.length = cloud.length - 3 := by
  obtain ⟨g1, g2, g3⟩ := iterationSets_degenerate cloud distanceTol h3 _ rnd samples hs hz
  have hne : samples ≠ [] := by
    intro h0
    subst h0
    simp at g2
    omega
  obtain ⟨k, hk, e1, e2, e3⟩ := foldl_keepBest_nil samples hne
    (fun s hs => by have := (g3 s hs).1; omega)
  have hk0 : k = 0 := by
    by_contra hk0
    have a := e3 0 (by omega) (by omega)
    have b := (g3 samples[0] (List.getElem_mem _)).1
    have c := (g3 samples[k] (List.getElem_mem _)).1
    omega
  subst hk0
  have hv := g3 samples[0] (List.getElem_mem _)
  obtain ⟨_, _, _, _, _, l6, l7⟩ := split_partition cloud samples[0] hv.2.1 hv.2.2
  refine ⟨samples[0], ?_, hv.1, ?_, ?_, ?_⟩
  · cases samples with
    | nil => exact absurd rfl hne
    | cons a t => rfl
  · rw [RansacPlane_eq_fold _ _ _ _ h3, g1]
    exact congrArg Except.ok e1
  · rw [mainSplit_eq]
    have h1 := hv.1
    show (filterByIndex (fun i => decide (i ∈ samples[0])) cloud).length = 3
    omega
  · rw [mainSplit_eq]
    have h1 := hv.1
    show (extractNegative samples[0] cloud).length = cloud.length - 3
    omega

/-- Witness of the amended C4: two iterations on the collinear `lineCloud`. -/
theorem RansacPlane_all_degenerate_witness :
    ∃ first, [[0, 1, 2], [1, 2, 3]].head? = some first ∧ first.length = 3 ∧
      RansacPlane lineCloud 2 1 [0, 1, 2, 1, 2, 3] = .ok first ∧
      (mainSplit lineCloud first).1.length = 3 ∧
      (mainSplit lineCloud first).2.length = lineCloud.length - 3 :=
  RansacPlane_all_degenerate lineCloud 2 1 [0, 1, 2, 1, 2, 3] [[0, 1, 2], [1, 2, 3]]
    (by decide) (by decide) (by decide) (by decide)

/-! ## `BoundingBox` -/

theorem foldl_min_spec (l : List α) :
    ∀ m : α, l.foldl min m ≤ m ∧ (∀ a ∈ l, l.foldl min m ≤ a) ∧
      (l.foldl min m = m ∨ l.foldl min m ∈ l) := by
  induction l with
  | nil => intro m; simp
  | cons a l ih =>
    intro m
    obtain ⟨h1, h2, h3⟩ := ih (min m a)
    simp only [List.foldl_cons]
    refine ⟨le_trans h1 (min_le_left _ _), ?_, ?_⟩
    · intro b hb
      rcases List.mem_cons.1 hb with h | h
      · subst h; exact le_trans h1 (min_le_right _ _)
      · exact h2 b h
    · rcases h3 with h | h
      · rcases min_choice m a with hc | hc
        · left; rw [h, hc]
        · right; rw [h, hc]; simp
      · right; exact List.mem_cons_of_mem _ h

theorem foldl_max_spec (l : List α) :
    ∀ m : α, m ≤ l.foldl max m ∧ (∀ a ∈ l, a ≤ l.foldl max m) ∧
      (l.foldl max m = m ∨ l.foldl max m ∈ l) := by
  induction l with
  | nil => intro m; simp
  | cons a l ih =>
    intro m
    obtain ⟨h1, h2, h3⟩ := ih (max m a)
    simp only [List.foldl_cons]
    refine ⟨le_trans (le_max_left _ _) h1, ?_, ?_⟩
    · intro b hb
      rcases List.mem_cons.1 hb with h | h
      · subst h; exact le_trans (le_max_right _ _) h1
      · exact h2 b h
    · rcases h3 with h | h
      · rcases max_choice m a with hc | hc
        · left; rw [h, hc]
        · right; rw [h, hc]; simp
      · right; exact List.mem_cons_of_mem _ h

/-- The six running values of the scan are the componentwise folds. -/
theorem minMax_fold_components (cluster : List (PointXYZ α)) :
    ∀ acc : PointXYZ α × PointXYZ α,
      (cluster.foldl
        (fun acc p =>
          ((⟨min acc.1.x p.x, min acc.1.y p.y, min acc.1.z p.z⟩ : PointXYZ α),
           (⟨max acc.2.x p.x, max acc.2.y p.y, max acc.2.z p.z⟩ : PointXYZ α))) acc) =
      (⟨(cluster.map (fun p => p.x)).foldl min acc.1.x,
        (cluster.map (fun p => p.y)).foldl min acc.1.y,
        (cluster.map (fun p => p.z)).foldl min acc.1.z⟩,
       ⟨(cluster.map (fun p => p.x)).foldl max acc.2.x,
        (cluster.map (fun p => p.y)).foldl max acc.2.y,
        (cluster.map (fun p => p.z)).foldl max acc.2.z⟩) := by
  induction cluster with
  | nil => intro acc; rfl
  | cons p cluster ih =>
    intro acc
    simp only [List.foldl_cons, List.map_cons, ih]

theorem BoundingBox_eq (FLT_MAX : α) (cluster : List (PointXYZ α)) :
    BoundingBox FLT_MAX cluster =
      { x_min := (cluster.map (fun p => p.x)).foldl min FLT_MAX,
        y_min := (cluster.map (fun p => p.y)).foldl min FLT_MAX,
        z_min := (cluster.map (fun p => p.z)).foldl min FLT_MAX,
        x_max := (cluster.map (fun p => p.x)).foldl max (-FLT_MAX),
        y_max := (cluster.map (fun p => p.y)).foldl max (-FLT_MAX),
        z_max := (cluster.map (fun p => p.z)).foldl max (-FLT_MAX) } := by
  simp only [BoundingBox, getMinMax3D, minMax_fold_components]

/-- A running minimum started at an upper bound of a non-empty list is below
every element and is one of them. -/
theorem foldl_min_attained (l : List α) (top : α) (hne : l ≠ []) (hb : ∀ a ∈ l, a ≤ top) :
    (∀ a ∈ l, l.foldl min top ≤ a) ∧ l.foldl min top ∈ l := by
  obtain ⟨h1, h2, h3⟩ := foldl_min_spec l top
  refine ⟨h2, ?_⟩
  rcases h3 with h | h
  · cases l with
    | nil => exact absurd rfl hne
    | cons a t =>
      have ha : a ∈ a :: t := by simp
      have e : (a :: t).foldl min top = a :=
        le_antisymm (h2 a ha) (by rw [h]; exact hb a ha)
      rw [e]
      exact ha
  · exact h

theorem foldl_max_attained (l : List α) (bot : α) (hne : l ≠ []) (hb : ∀ a ∈ l, bot ≤ a) :
    (∀ a ∈ l, a ≤ l.foldl max bot) ∧ l.foldl max bot ∈ l := by
  obtain ⟨h1, h2, h3⟩ := foldl_max_spec l bot
  refine ⟨h2, ?_⟩
  rcases h3 with h | h
  · cases l with
    | nil => exact absurd rfl hne
    | cons a t =>
      have ha : a ∈ a :: t := by simp
      have e : (a :: t).foldl max bot = a :=
        le_antisymm (by rw [h]; exact hb a ha) (h2 a ha)
      rw [e]
      exact ha
  · exact h

/-- C7: for a non-empty cluster whose coordinates are finite `float` values
(between `-FLT_MAX` and `FLT_MAX`), every point lies inside the box returned
by `BoundingBox`, each of the six bounds is attained by a point of the
cluster, and the box of a single point has all six fields equal to that
point's coordinates. -/
theorem BoundingBox_extrema (FLT_MAX : α) (cluster : List (PointXYZ α)) (hne : cluster ≠ [])
    (hfin : ∀ p ∈ cluster, (-FLT_MAX ≤ p.x ∧ p.x ≤ FLT_MAX) ∧
      (-FLT_MAX ≤ p.y ∧ p.y ≤ FLT_MAX) ∧ (-FLT_MAX ≤ p.z ∧ p.z ≤ FLT_MAX)) :
    (∀ p ∈ cluster,
      (BoundingBox FLT_MAX cluster).x_min ≤ p.x ∧ p.x ≤ (BoundingBox FLT_MAX cluster).x_max ∧
      (BoundingBox FLT_MAX cluster).y_min ≤ p.y ∧ p.y ≤ (BoundingBox FLT_MAX cluster).y_max ∧
      (BoundingBox FLT_MAX cluster).z_min ≤ p.z ∧ p.z ≤ (BoundingBox FLT_MAX cluster).z_max) ∧
    (∃ p ∈ cluster, p.x = (BoundingBox FLT_MAX cluster).x_min) ∧
    (∃ p ∈ cluster, p.y = (BoundingBox FLT_MAX cluster).y_min) ∧
    (∃ p ∈ cluster, p.z = (BoundingBox FLT_MAX cluster).z_min) ∧
    (∃ p ∈ cluster, p.x = (BoundingBox FLT_MAX cluster).x_max) ∧
    (∃ p ∈ cluster, p.y = (BoundingBox FLT_MAX cluster).y_max) ∧
    (∃ p ∈ cluster, p.z = (BoundingBox FLT_MAX cluster).z_max) ∧
    (∀ p, cluster = [p] → BoundingBox FLT_MAX cluster = ⟨p.x, p.y, p.z, p.x, p.y, p.z⟩) := by
  have nx : cluster.map (fun p => p.x) ≠ [] := by simpa using hne
  have ny : cluster.map (fun p => p.y) ≠ [] := by simpa using hne
  have nz : cluster.map (fun p => p.z) ≠ [] := by simpa using hne
  obtain ⟨ax, bx⟩ := foldl_min_attained (cluster.map (fun p => p.x)) FLT_MAX nx
    (by intro a ha; obtain ⟨p, hp, rfl⟩ := List.mem_map.1 ha; exact (hfin p hp).1.2)
  obtain ⟨ay, bY⟩ := foldl_min_attained (cluster.map (fun p => p.y)) FLT_MAX ny
    (by intro a ha; obtain ⟨p, hp, rfl⟩ := List.mem_map.1 ha; exact (hfin p hp).2.1.2)
  obtain ⟨az, bz⟩ := foldl_min_attained (cluster.map (fun p => p.z)) FLT_MAX nz
    (by intro a ha; obtain ⟨p, hp, rfl⟩ := List.mem_map.1 ha; exact (hfin p hp).2.2.2)
  obtain ⟨cx, dx⟩ := foldl_max_attained (cluster.map (fun p => p.x)) (-FLT_MAX) nx
    (by intro a ha; obtain ⟨p, hp, rfl⟩ := List.mem_map.1 ha; exact (hfin p hp).1.1)
  obtain ⟨cy, dy⟩ := foldl_max_attained (cluster.map (fun p => p.y)) (-FLT_MAX) ny
    (by intro a ha; obtain ⟨p, hp, rfl⟩ := List.mem_map.1 ha; exact (hfin p hp).2.1.1)
  obtain ⟨cz, dz⟩ := foldl_max_attained (cluster.map (fun p => p.z)) (-FLT_MAX) nz
    (by intro a ha; obtain ⟨p, hp, rfl⟩ := List.mem_map.1 ha; exact (hfin p hp).2.2.1)
  rw [BoundingBox_eq]
  refine ⟨?_, ?_, ?_, ?_, ?_, ?_, ?_, ?_⟩
  · intro p hp
    exact ⟨ax _ (List.mem_map_of_mem _ hp), cx _ (List.mem_map_of_mem _ hp),
      ay _ (List.mem_map_of_mem _ hp), cy _ (List.mem_map_of_mem _ hp),
      az _ (List.mem_map_of_mem _ hp), cz _ (List.mem_map_of_mem _ hp)⟩
  · obtain ⟨p, hp, e⟩ := List.mem_map.1 bx; exact ⟨p, hp, e⟩
  · obtain ⟨p, hp, e⟩ := List.mem_map.1 bY; exact ⟨p, hp, e⟩
  · obtain ⟨p, hp, e⟩ := List.mem_map.1 bz; exact ⟨p, hp, e⟩
  · obtain ⟨p, hp, e⟩ := List.mem_map.1 dx; exact ⟨p, hp, e⟩
  · obtain ⟨p, hp, e⟩ := List.mem_map.1 dy; exact ⟨p, hp, e⟩
  · obtain ⟨p, hp, e⟩ := List.mem_map.1 dz; exact ⟨p, hp, e⟩
  · intro p hp
    subst hp
    simp only [List.map_cons, List.map_nil, List.mem_singleton] at bx bY bz dx dy dz ⊢
    rw [bx, bY, bz, dx, dy, dz]

/-- Witness of C7 on the five points of `groundCloud`, with `FLT_MAX = 1000`. -/
theorem BoundingBox_extrema_witness :
    (∀ p ∈ groundCloud,
      (BoundingBox 1000 groundCloud).x_min ≤ p.x ∧ p.x ≤ (BoundingBox 1000 groundCloud).x_max ∧
      (BoundingBox 1000 groundCloud).y_min ≤ p.y ∧ p.y ≤ (BoundingBox 1000 groundCloud).y_max ∧
      (BoundingBox 1000 groundCloud).z_min ≤ p.z ∧ p.z ≤ (BoundingBox 1000 groundCloud).z_max) ∧
    (∃ p ∈ groundCloud, p.x = (BoundingBox 1000 groundCloud).x_min) ∧
    (∃ p ∈ groundCloud, p.y = (BoundingBox 1000 groundCloud).y_min) ∧
    (∃ p ∈ groundCloud, p.z = (BoundingBox 1000 groundCloud).z_min) ∧
    (∃ p ∈ groundCloud, p.x = (BoundingBox 1000 groundCloud).x_max) ∧
    (∃ p ∈ groundCloud, p.y = (BoundingBox 1000 groundCloud).y_max) ∧
    (∃ p ∈ groundCloud, p.z = (BoundingBox 1000 groundCloud).z_max) ∧
    (∀ p, groundCloud = [p] → BoundingBox 1000 groundCloud = ⟨p.x, p.y, p.z, p.x, p.y, p.z⟩) :=
  BoundingBox_extrema 1000 groundCloud (by decide) (by decide)

/-! ## `Clustering` -/

theorem radiusSearch_spec (cloud : List (PointXYZ α)) (radius : α) (p : PointXYZ α) :
    (radiusSearch cloud radius p).Nodup ∧ ∀ i ∈ radiusSearch cloud radius p, i < cloud.length := by
  have hsub : (radiusSearch cloud radius p).Sublist (List.range cloud.length) := by
    unfold radiusSearch
    have h : ((cloud.enum.filter
        (fun q => decide (0 ≤ radius ∧ sqDist p q.2 ≤ radius * radius))).map Prod.fst).Sublist
        (cloud.enum.map Prod.fst) := (List.filter_sublist _).map _
    rwa [List.enum_map_fst] at h
  exact ⟨hsub.nodup (List.nodup_range _), fun i hi => List.mem_range.1 (hsub.subset hi)⟩

/-- Marking a batch of fresh in-range indices lowers the number of unprocessed
indices by the size of the batch. -/
theorem unprocessed_append (n : Nat) (processed fresh : List Nat) (hnd : fresh.Nodup)
    (hr : ∀ i ∈ fresh, i < n) (hf : ∀ i ∈ fresh, i ∉ processed) :
    ((List.range n).filter (fun i => !decide (i ∈ processed))).length =
      fresh.length +
        ((List.range n).filter (fun i => !decide (i ∈ processed ++ fresh))).length := by
  have hsplit : ((List.range n).filter (fun i => !decide (i ∈ processed))).length =
      (((List.range n).filter (fun i => !decide (i ∈ processed))).filter
        (fun i => decide (i ∈ fresh))).length +
      (((List.range n).filter (fun i => !decide (i ∈ processed))).filter
        (fun i => !decide (i ∈ fresh))).length :=
    List.length_eq_length_filter_add _
  have h1 : (((List.range n).filter (fun i => !decide (i ∈ processed))).filter
      (fun i => decide (i ∈ fresh))).Perm fresh := by
    rw [List.perm_ext_iff_of_nodup (((List.nodup_range n).filter _).filter _) hnd]
    intro a
    simp only [List.mem_filter, List.mem_range, decide_eq_true_eq, Bool.not_eq_true',
      decide_eq_false_iff_not]
    constructor
    · exact fun h => h.2
    · exact fun h => ⟨⟨hr a h, hf a h⟩, h⟩
  have h2 : ((List.range n).filter (fun i => !decide (i ∈ processed))).filter
      (fun i => !decide (i ∈ fresh)) =
      (List.range n).filter (fun i => !decide (i ∈ processed ++ fresh)) := by
    rw [List.filter_filter]
    apply List.filter_congr
    intro a _
    simp only [List.mem_append, not_or, Bool.decide_and, Bool.not_and]
    by_cases ha : a ∈ processed <;> by_cases hb : a ∈ fresh <;> simp [ha, hb]
  rw [h1.length_eq, h2] at hsplit
  exact hsplit

theorem fresh_spec (cloud : List (PointXYZ α)) (tol : α) (pt : PointXYZ α)
    (processed : List Nat) :
    ((radiusSearch cloud tol pt).filter (fun j => !decide (j ∈ processed))).Nodup ∧
    (∀ i ∈ (radiusSearch cloud tol pt).filter (fun j => !decide (j ∈ processed)),
      i < cloud.length ∧ i ∉ processed) := by
  obtain ⟨h1, h2⟩ := radiusSearch_spec cloud tol pt
  refine ⟨h1.filter _, ?_⟩
  intro i hi
  rw [List.mem_filter] at hi
  exact ⟨h2 i hi.1, by simpa using hi.2⟩

/-- Enough fuel lets the expansion finish: each pop uses one unit, and the
queue length plus the number of unprocessed indices never grows. -/
theorem expandCluster_isSome (cloud : List (PointXYZ α)) (tol : α) :
    ∀ (fuel : Nat) (queue processed cluster : List Nat),
      (∀ i ∈ queue, i < cloud.length) →
      queue.length +
        ((List.range cloud.length).filter (fun i => !decide (i ∈ processed))).length ≤ fuel →
      ∃ r, expandCluster cloud tol fuel queue processed cluster = some r := by
  intro fuel
  induction fuel with
  | zero =>
    intro queue processed cluster _ hm
    cases queue with
    | nil => exact ⟨(cluster, processed), by simp [expandCluster]⟩
    | cons p q => simp at hm
  | succ fuel ih =>
    intro queue processed cluster hq hm
    cases queue with
    | nil => exact ⟨(cluster, processed), by simp [expandCluster]⟩
    | cons p q =>
      have hp : p < cloud.length := hq p (by simp)
      obtain ⟨f1, f2⟩ := fresh_spec cloud tol cloud[p] processed
      have hu := unprocessed_append cloud.length processed _ f1
        (fun i hi => (f2 i hi).1) (fun i hi => (f2 i hi).2)
      simp only [expandCluster, List.getElem?_eq_getElem hp]
      apply ih
      · intro i hi
        rcases List.mem_append.1 hi with h | h
        · exact hq i (by simp [h])
        · exact (f2 i h).1
      · simp only [List.length_append, List.length_cons] at hm ⊢
        omega

theorem expandCluster_spec (cloud : List (PointXYZ α)) (tol : α) :
    ∀ (fuel : Nat) (queue processed cluster res processed2 : List Nat),
      expandCluster cloud tol fuel queue processed cluster = some (res, processed2) →
      (cluster ++ queue).Nodup → (∀ i ∈ cluster ++ queue, i ∈ processed) →
      res.Nodup ∧ (∀ i ∈ res, i ∈ processed2) ∧ (∀ i ∈ processed, i ∈ processed2) ∧
      (∀ i ∈ res, i ∈ cluster ++ queue ∨ i ∉ processed) ∧
      (∀ i ∈ res, i ∈ cluster ∨ i < cloud.length) := by
  intro fuel
  induction fuel with
  | zero =>
    intro queue processed cluster res processed2 h hnd hsub
    cases queue with
    | nil =>
      simp only [expandCluster, Option.some.injEq, Prod.mk.injEq] at h
      obtain ⟨rfl, rfl⟩ := h
      simp only [List.append_nil] at hnd hsub
      exact ⟨hnd, hsub, fun i hi => hi, fun i hi => Or.inl (by simpa using hi),
        fun i hi => Or.inl hi⟩
    | cons p q => simp [expandCluster] at h
  | succ fuel ih =>
    intro queue processed cluster res processed2 h hnd hsub
    cases queue with
    | nil =>
      simp only [expandCluster, Option.some.injEq, Prod.mk.injEq] at h
      obtain ⟨rfl, rfl⟩ := h
      simp only [List.append_nil] at hnd hsub
      exact ⟨hnd, hsub, fun i hi => hi, fun i hi => Or.inl (by simpa using hi),
        fun i hi => Or.inl hi⟩
    | cons p q =>
      simp only [expandCluster] at h
      cases hpt : cloud[p]? with
      | none => simp [hpt] at h
      | some pt =>
        simp only [hpt] at h
        have hp : p < cloud.length := by
          by_contra hge
          rw [List.getElem?_eq_none (by omega)] at hpt
          cases hpt
        obtain ⟨f1, f2⟩ := fresh_spec cloud tol pt processed
        have hnd2 : ((cluster ++ [p]) ++
            (q ++ (radiusSearch cloud tol pt).filter (fun j => !decide (j ∈ processed)))).Nodup := by
          have e : (cluster ++ [p]) ++
              (q ++ (radiusSearch cloud tol pt).filter (fun j => !decide (j ∈ processed))) =
              (cluster ++ p :: q) ++
                (radiusSearch cloud tol pt).filter (fun j => !decide (j ∈ processed)) := by
            simp
          rw [e]
          apply List.Nodup.append hnd f1
          intro a ha hb
          exact (f2 a hb).2 (hsub a ha)
        have hsub2 : ∀ i ∈ (cluster ++ [p]) ++
            (q ++ (radiusSearch cloud tol pt).filter (fun j => !decide (j ∈ processed))),
            i ∈ processed ++
              (radiusSearch cloud tol pt).filter (fun j => !decide (j ∈ processed)) := by
          intro i hi
          simp only [List.mem_append, List.mem_singleton] at hi
          rcases hi with (h1 | h1) | (h1 | h1)
          · exact List.mem_append_left _ (hsub i (by simp [h1]))
          · exact List.mem_append_left _ (hsub i (by simp [h1]))
          · exact List.mem_append_left _ (hsub i (by simp [h1]))
          · exact List.mem_append_right _ h1
        obtain ⟨g1, g2, g3, g4, g5⟩ := ih _ _ _ res processed2 h hnd2 hsub2
        refine ⟨g1, g2, fun i hi => g3 i (List.mem_append_left _ hi), ?_, ?_⟩
        · intro i hi
          rcases g4 i hi with h1 | h1
          · simp only [List.mem_append, List.mem_singleton] at h1
            rcases h1 with (h1 | h1) | (h1 | h1)
            · left; simp [h1]
            · left; simp [h1]
            · left; simp [h1]
            · right; exact (f2 i h1).2
          · right
            exact fun hc => h1 (List.mem_append_left _ hc)
        · intro i hi
          rcases g5 i hi with h1 | h1
          · rcases List.mem_append.1 h1 with h2 | h2
            · exact Or.inl h2
            · simp only [List.mem_singleton] at h2
              subst h2
              exact Or.inr hp
          · exact Or.inr h1

theorem extractLoop_spec (cloud : List (PointXYZ α)) (tol : α) (minSize maxSize : Int) :
    ∀ (seeds processed : List Nat) (clusters : List (List Nat)),
      (∀ i ∈ seeds, i < cloud.length) → clusters.flatten.Nodup →
      (∀ c ∈ clusters, ∀ i ∈ c, i ∈ processed ∧ i < cloud.length) →
      ∃ result, extractLoop cloud tol minSize maxSize seeds processed clusters = some result ∧
        result.flatten.Nodup ∧ ∀ c ∈ result, ∀ i ∈ c, i < cloud.length := by
  intro seeds
  induction seeds with
  | nil =>
    intro processed clusters _ hnd hin
    exact ⟨clusters, rfl, hnd, fun c hc i hi => (hin c hc i hi).2⟩
  | cons p seeds ih =>
    intro processed clusters hs hnd hin
    have hp : p < cloud.length := hs p (by simp)
    have hs2 : ∀ i ∈ seeds, i < cloud.length := fun i hi => hs i (by simp [hi])
    simp only [extractLoop]
    by_cases hproc : p ∈ processed
    · rw [if_pos hproc]
      exact ih processed clusters hs2 hnd hin
    · rw [if_neg hproc]
      have hu := unprocessed_append cloud.length processed [p] (List.nodup_singleton p)
        (by intro i hi; simp at hi; omega) (by intro i hi; simp at hi; rw [hi]; exact hproc)
      have hle := List.length_filter_le (fun i => !decide (i ∈ processed))
        (List.range cloud.length)
      rw [List.length_range] at hle
      obtain ⟨r, hr⟩ := expandCluster_isSome cloud tol cloud.length [p] (processed ++ [p]) []
        (by intro i hi; simp at hi; omega)
        (by simp only [List.length_singleton] at hu ⊢; omega)
      obtain ⟨cluster, processed2⟩ := r
      obtain ⟨g1, g2, g3, g4, g5⟩ := expandCluster_spec cloud tol _ _ _ _ _ _ hr
        (by simp) (by intro i hi; simp at hi; simp [hi])
      have hfreshc : ∀ i ∈ cluster, i ∉ processed := by
        intro i hi
        rcases g4 i hi with h1 | h1
        · simp at h1
          rw [h1]
          exact hproc
        · exact fun hc => h1 (List.mem_append_left _ hc)
      have hrange : ∀ i ∈ cluster, i < cloud.length := by
        intro i hi
        rcases g5 i hi with h1 | h1
        · simp at h1
        · exact h1
      have hin2 : ∀ c ∈ clusters, ∀ i ∈ c, i ∈ processed2 ∧ i < cloud.length :=
        fun c hc i hi =>
          ⟨g3 i (List.mem_append_left _ (hin c hc i hi).1), (hin c hc i hi).2⟩
      simp only [hr]
      split
      · apply ih processed2 (clusters ++ [cluster]) hs2
        · rw [List.flatten_concat]
          apply List.Nodup.append hnd g1
          intro a ha hb
          obtain ⟨c, hc, hac⟩ := List.mem_flatten.1 ha
          exact hfreshc a hb (hin c hc a hac).1
        · intro c hc i hi
          rcases List.mem_append.1 hc with h1 | h1
          · exact hin2 c h1 i hi
          · simp only [List.mem_singleton] at h1
            subst h1
            exact ⟨g2 i hi, hrange i hi⟩
      · exact ih processed2 clusters hs2 hnd hin2

theorem cloudsOfClusters_points (cloud : List (PointXYZ α)) :
    ∀ cluster_indices : List (List Nat),
      (∀ c ∈ cluster_indices, ∀ i ∈ c, i < cloud.length) →
      ∃ clusters, cloudsOfClusters cloud cluster_indices = some clusters ∧
        clusters.map (fun c => c.map some) =
          cluster_indices.map (fun c => c.map (fun i => cloud[i]?)) := by
  intro cluster_indices
  induction cluster_indices with
  | nil => intro _; exact ⟨[], rfl, rfl⟩
  | cons c rest ih =>
    intro h
    obtain ⟨clusters, h1, h2⟩ := ih (fun d hd => h d (by simp [hd]))
    obtain ⟨pts, h3, h4⟩ := gatherPoints_points cloud c (h c (by simp))
    exact ⟨pts :: clusters, by simp [cloudsOfClusters, h1, h3], by simp [h2, h4]⟩

theorem filter_mem_length_le_one (i : Nat) :
    ∀ L : List (List Nat), L.Pairwise List.Disjoint →
      (L.filter (fun c => decide (i ∈ c))).length ≤ 1 := by
  intro L
  induction L with
  | nil => intro _; simp
  | cons c L ih =>
    intro h
    rw [List.pairwise_cons] at h
    by_cases hic : i ∈ c
    · have hnone : L.filter (fun c => decide (i ∈ c)) = [] := by
        rw [List.filter_eq_nil_iff]
        intro d hd
        have := h.1 d hd
        simpa using fun hid => this hic hid
      simp [List.filter_cons, hic, hnone]
    · have := ih h.2
      simpa [List.filter_cons, hic] using this

/-- C8: `Clustering` returns, for every cloud, tolerance and size bounds, one
cloud per retained cluster of indices; the retained clusters are pairwise
disjoint sets of in-range cloud indices without repetition, so every index of
the cloud is in at most one of them. -/
theorem Clustering_disjoint (cloud : List (PointXYZ α)) (clusterTolerance : α)
    (minSize maxSize : Int) :
    ∃ cluster_indices clusters,
      extractClusters cloud clusterTolerance minSize maxSize = some cluster_indices ∧
      Clustering cloud clusterTolerance minSize maxSize = some clusters ∧
      clusters.map (fun c => c.map some) =
        cluster_indices.map (fun c => c.map (fun i => cloud[i]?)) ∧
      cluster_indices.Pairwise List.Disjoint ∧
      (∀ c ∈ cluster_indices, c.Nodup ∧ ∀ i ∈ c, i < cloud.length) ∧
      (∀ i, (cluster_indices.filter (fun c => decide (i ∈ c))).length ≤ 1) := by
  obtain ⟨result, h1, h2, h3⟩ := extractLoop_spec cloud clusterTolerance minSize maxSize
    (List.range cloud.length) [] [] (fun i hi => List.mem_range.1 hi) (by simp) (by simp)
  obtain ⟨clusters, h4, h5⟩ := cloudsOfClusters_points cloud result h3
  rw [List.nodup_flatten] at h2
  refine ⟨result, clusters, h1, ?_, h5, h2.2, fun c hc => ⟨h2.1 c hc, h3 c hc⟩,
    fun i => filter_mem_length_le_one i result h2.2⟩
  simp only [Clustering]
  have h1b : extractClusters cloud clusterTolerance minSize maxSize = some result := h1
  rw [h1b]
  exact h4

/-! ## What `RansacPlane` finds on a plane through the origin -/

theorem iterationSets_of_sample (cloud : List (PointXYZ α)) (tol : α) :
    ∀ (n : Nat) (rnd : List Nat) (sets samples : List (List Nat)),
      iterationSets cloud tol n rnd = .ok sets →
      sampledTriples cloud.length n rnd = some samples →
      ∀ s ∈ samples, ∃ set ∈ sets, ∃ p1 p2 p3, samplePoints cloud s = some (p1, p2, p3) ∧
        set = distanceLoop (planeCoefficients p1 p2 p3) tol 0 cloud s := by
  intro n
  induction n with
  | zero =>
    intro rnd sets samples _ hs
    simp only [sampledTriples, Option.some.injEq] at hs
    subst hs
    simp
  | succ n ih =>
    intro rnd sets samples hi hs
    simp only [sampledTriples] at hs
    simp only [iterationSets, planeIteration] at hi
    cases hsl : sampleLoop cloud.length [] rnd with
    | none => simp [hsl] at hs
    | some r =>
      obtain ⟨sample, rest⟩ := r
      simp only [hsl] at hs hi
      cases hsp : samplePoints cloud sample with
      | none => simp [hsp] at hi
      | some pts =>
        obtain ⟨p1, p2, p3⟩ := pts
        simp only [hsp] at hi
        cases hit : iterationSets cloud tol n rest with
        | error e => simp [hit] at hi
        | ok sets2 =>
          simp only [hit, Except.ok.injEq] at hi
          subst hi
          cases hst : sampledTriples cloud.length n rest with
          | none => simp [hst] at hs
          | some samples2 =>
            simp only [hst, Option.some.injEq] at hs
            subst hs
            intro s hmem
            rcases List.mem_cons.1 hmem with h1 | h1
            · subst h1
              exact ⟨_, List.mem_cons_self _ _, p1, p2, p3, hsp, rfl⟩
            · obtain ⟨set, hset, q⟩ := ih rest sets2 samples2 hit hst s h1
              exact ⟨set, List.mem_cons_of_mem _ hset, q⟩

theorem mem_of_nodup_of_length_ge (n : Nat) (res : List Nat) (hnd : res.Nodup)
    (hr : ∀ i ∈ res, i < n) (hlen : n ≤ res.length) : ∀ i, i < n → i ∈ res := by
  have hsub : res ⊆ List.range n := fun i hi => List.mem_range.2 (hr i hi)
  have hperm : res.Perm (List.range n) :=
    (List.subperm_of_subset hnd hsub).perm_of_length_le (by simpa using hlen)
  intro i hi
  exact hperm.mem_iff.2 (List.mem_range.2 hi)

/-- When every point of the cloud lies on one plane through the origin,
`0 <= distanceTol`, and some sampled triple has a normal of non-zero length,
the inlier set that `RansacPlane` returns contains every index of the cloud. -/
theorem RansacPlane_plane_through_origin (cloud : List (PointXYZ α)) (maxIterations : Int)
    (distanceTol : α) (rnd res : List Nat) (samples : List (List Nat)) (a b c : α)
    (hn : a ≠ 0 ∨ b ≠ 0 ∨ c ≠ 0)
    (hplane : ∀ p ∈ cloud, a * p.x + b * p.y + c * p.z = 0) (htol : 0 ≤ distanceTol)
    (hrun : RansacPlane cloud maxIterations distanceTol rnd = .ok res)
    (hs : sampledTriples cloud.length maxIterations.toNat rnd = some samples)
    (hnc : ∃ s ∈ samples, zeroNormal cloud s = false) :
    ∀ i, i < cloud.length → i ∈ res := by
  obtain ⟨v1, v2⟩ := RansacPlane_ok_valid cloud maxIterations distanceTol rnd res hrun
  have h3 : 3 ≤ cloud.length := by
    by_contra hlt
    unfold RansacPlane at hrun
    rw [if_pos (by omega)] at hrun
    cases hrun
  rw [RansacPlane_eq_fold _ _ _ _ h3] at hrun
  cases hit : iterationSets cloud distanceTol maxIterations.toNat rnd with
  | error e =>
    rw [hit] at hrun
    cases hrun
  | ok sets =>
    rw [hit] at hrun
    have hres : res = sets.foldl keepBest [] := by
      cases hrun
      rfl
    obtain ⟨s, hsmem, hsnz⟩ := hnc
    obtain ⟨set, hset, p1, p2, p3, hsp, hdef⟩ :=
      iterationSets_of_sample cloud distanceTol _ rnd sets samples hit hs s hsmem
    have hN : (planeCoefficients p1 p2 p3).N ≠ 0 := by
      simpa [zeroNormal, hsp] using hsnz
    have hmemCloud : p1 ∈ cloud ∧ p2 ∈ cloud ∧ p3 ∈ cloud := by
      unfold samplePoints at hsp
      split at hsp
      · rename_i i1 i2 i3 tl
        split at hsp
        · rename_i q1 q2 q3 e1 e2 e3
          simp only [Option.some.injEq, Prod.mk.injEq] at hsp
          obtain ⟨rfl, rfl, rfl⟩ := hsp
          exact ⟨List.getElem?_mem e1, List.getElem?_mem e2, List.getElem?_mem e3⟩
        · cases hsp
      · cases hsp
    have hall : ∀ pt ∈ cloud, withinTol (planeCoefficients p1 p2 p3) distanceTol pt = true := by
      intro pt hpt
      have e0 := planeExpr_plane_through_origin p1 p2 p3 pt a b c hn
        (hplane p1 hmemCloud.1) (hplane p2 hmemCloud.2.1) (hplane p3 hmemCloud.2.2)
        (hplane pt hpt)
      simp only [withinTol, e0, decide_eq_true_eq]
      refine ⟨hN, htol, ?_⟩
      have := mul_nonneg (mul_nonneg htol htol) (planeCoefficients_N_nonneg p1 p2 p3)
      simpa using this
    have hsetAll : ∀ i, i < cloud.length → i ∈ set := by
      intro i hi
      rw [hdef]
      exact distanceLoop_all_within _ _ cloud 0 s hall i (Nat.zero_le _) (by omega)
    obtain ⟨_, g2⟩ := iterationSets_spec cloud distanceTol h3 _ _ sets hit
    have hsetLen : cloud.length ≤ set.length := by
      have hsub : List.range cloud.length ⊆ set :=
        fun i hi => hsetAll i (List.mem_range.1 hi)
      have := (List.subperm_of_subset (List.nodup_range _) hsub).length_le
      simpa using this
    have hresLen : cloud.length ≤ res.length := by
      obtain ⟨k, hk, hkeq⟩ := List.getElem_of_mem hset
      rcases foldl_keepBest sets [] with ⟨_, e2⟩ | ⟨m, hm, e1, _, e3, _⟩
      · have := e2 set hset
        simp only [List.length_nil] at this
        omega
      · have := e3 k hk
        rw [hres, e1]
        rw [hkeq] at this
        omega
    exact mem_of_nodup_of_length_ge cloud.length res v1 v2 hresLen

/-- The four points of `originPlaneCloud` are all found from the sample
`0, 1, 2` with `distanceTol = 0`. -/
theorem RansacPlane_plane_through_origin_example :
    RansacPlane originPlaneCloud 1 0 [0, 1, 2] = .ok [0, 1, 2, 3] ∧
    ∀ i, i < originPlaneCloud.length → i ∈ [0, 1, 2, 3] :=
  ⟨rfl, RansacPlane_plane_through_origin originPlaneCloud 1 0 [0, 1, 2] [0, 1, 2, 3]
    [[0, 1, 2]] 0 0 1 (by decide) (by decide) (by decide) rfl (by decide)
    ⟨[0, 1, 2], by decide, by decide⟩⟩

/-- The clusters of `twoGroupsCloud` with tolerance 1 and sizes in `[2, 10]`:
the two groups are retained and the lone point 4 is discarded. -/
theorem extractClusters_example :
    extractClusters twoGroupsCloud 1 2 10 = some [[0, 2, 5], [1, 3]] ∧
    extractClusters twoGroupsCloud 1 1 10 = some [[0, 2, 5], [1, 3], [4]] := by
  decide

end LidarObstacleDetection
